import Mathlib

/-!
Verification of the SLV housing-market orchestration layer.

This file is a shallow embedding of the Python sources
`backend/app/services/ai_cache.py`, `backend/app/services/rate_limiter.py`
and `backend/app/services/property_analysis_service.py`, together with
theorems settling the frozen claims about them.

Modelling conventions, used throughout:
* Time is modelled as an integer number of tenths of a second, so that the
  limiter windows (60 s, 86400 s) become 600 and 864000 and the
  `asyncio.sleep(wait + 0.1)` safety buffer becomes the integer 1.
  `time.time()` floats are exact integers of this unit; the limiter and the
  cache only add, subtract and compare times, so this is faithful.
* Money, scores and other numeric payload values are rationals.
* Python truthiness (`if prop.total_monthly_cost:` is False for both `None`
  and `0`) is modelled explicitly by `qTruthy` and `strTruthy`.
* Python `list.sort` / `sorted` are stable; they are modelled by
  `List.insertionSort`, which is the stable sort on a total preorder.
* The external generative model is opaque: each pipeline takes the outcome
  of the `model.generate_content` call as an explicit argument, abstracted
  up to the JSON extraction the parser performs on the reply text.
* Decimal string formatting (Python format specs such as the comma or
  two-decimal forms) is modelled by `fmtUSD`/`fmtQ` without thousands
  separators; no claim observes the formatted text.
-/

namespace SLV

/-- Python truthiness of an optional numeric column value:
`None` and `0` are falsy. -/
def qTruthy : Option ℚ → Bool
  | none => false
  | some x => decide (x ≠ 0)

/-- Python truthiness of an optional string column value:
`None` and the empty string are falsy. -/
def strTruthy : Option String → Bool
  | none => false
  | some s => decide (s ≠ "")

/-- The `Property` ORM record (`backend/app/models/property.py`), restricted
to the columns the analysis service reads.  `price` and `address` are the
only non-nullable columns. -/
structure Property where
  id : ℕ
  address : String
  city : Option String
  price : ℚ
  beds : Option ℕ
  baths : Option ℚ
  sqft : Option ℚ
  price_per_sqft : Option ℚ
  hoa_fee : Option ℚ
  total_monthly_cost : Option ℚ
  days_on_market : Option ℤ
  property_type : Option String
deriving DecidableEq, Repr

/-! ## The response cache (`ai_cache.py`)

The Python cache is a `dict` from string keys to entry dicts.  It is
modelled as an association list in insertion order with unique keys, which
is exactly the observable behaviour of a Python dict: lookup finds the
entry, overwriting a key keeps its position, a new key is appended, and
deletion removes the entry.  The key type is a parameter: the standalone
cache claims use `String` keys (as in the source, where keys are
`"ai:<kind>:<md5 of the stable JSON serialization>"`), while the pipeline
models use the normalized parameter tuples themselves as keys, modelling
the digest as an injective serialization. -/

/-- One cache entry, as built by `AIResponseCache.set`. -/
structure CacheEntry (α : Type) where
  data : α
  created_at : ℤ
  last_accessed : ℤ
  expires_at : ℤ
deriving DecidableEq, Repr

/-- Find the entry stored under `key` (Python `self.cache[key]` /
`key in self.cache`). -/
def cacheLookup {κ α : Type} [DecidableEq κ] :
    List (κ × CacheEntry α) → κ → Option (CacheEntry α)
  | [], _ => none
  | kv :: rest, key => if kv.1 = key then some kv.2 else cacheLookup rest key

/-- Store `e` under `key`: overwrite in place when the key is present,
append otherwise (Python `self.cache[key] = entry`). -/
def cacheInsert {κ α : Type} [DecidableEq κ] :
    List (κ × CacheEntry α) → κ → CacheEntry α → List (κ × CacheEntry α)
  | [], key, e => [(key, e)]
  | kv :: rest, key, e =>
      if kv.1 = key then (key, e) :: rest else kv :: cacheInsert rest key e

/-- Delete the entry stored under `key` (Python `del self.cache[key]`);
no-op when the key is absent. -/
def cacheErase {κ α : Type} [DecidableEq κ] :
    List (κ × CacheEntry α) → κ → List (κ × CacheEntry α)
  | [], _ => []
  | kv :: rest, key => if kv.1 = key then rest else kv :: cacheErase rest key

/-- Mutate the entry stored under `key` in place (Python
`entry["last_accessed"] = now`). -/
def cacheModify {κ α : Type} [DecidableEq κ] :
    List (κ × CacheEntry α) → κ → (CacheEntry α → CacheEntry α) →
    List (κ × CacheEntry α)
  | [], _, _ => []
  | kv :: rest, key, f =>
      if kv.1 = key then (kv.1, f kv.2) :: rest else kv :: cacheModify rest key f

/-- `min(self.cache.keys(), key=lambda k: cache[k]["last_accessed"])`:
scan keeping the current best, replacing it only on a strictly smaller
access time, so the first minimal key in iteration order wins (CPython
`min` semantics, ties broken by first occurrence). -/
def lruScan {κ α : Type} : κ × ℤ → List (κ × CacheEntry α) → κ
  | best, [] => best.1
  | best, kv :: rest =>
      if kv.2.last_accessed < best.2 then lruScan (kv.1, kv.2.last_accessed) rest
      else lruScan best rest

/-- `AIResponseCache._evict_lru`: remove the entry with the oldest
`last_accessed`; no-op on an empty cache. -/
def evictLru {κ α : Type} [DecidableEq κ] :
    List (κ × CacheEntry α) → List (κ × CacheEntry α)
  | [] => []
  | kv :: rest => cacheErase (kv :: rest) (lruScan (kv.1, kv.2.last_accessed) rest)

/-- The in-memory AI response cache (`AIResponseCache.__init__`, defaults
`max_size=500`, `default_ttl=3600` seconds = 36000 tenths). -/
structure AIResponseCache (κ α : Type) where
  max_size : ℕ
  default_ttl : ℤ
  cache : List (κ × CacheEntry α)

/-- A fresh cache. -/
def AIResponseCache.init (κ α : Type) (max_size : ℕ := 500)
    (default_ttl : ℤ := 36000) : AIResponseCache κ α :=
  ⟨max_size, default_ttl, []⟩

/-- `AIResponseCache.get`: miss when the key is absent; when the entry has
expired (`now > expires_at`) delete it and miss; otherwise touch
`last_accessed` and return the data. -/
def AIResponseCache.get {κ α : Type} [DecidableEq κ] (c : AIResponseCache κ α)
    (key : κ) (now : ℤ) : Option α × AIResponseCache κ α :=
  match cacheLookup c.cache key with
  | none => (none, c)
  | some e =>
      if e.expires_at < now then
        (none, { c with cache := cacheErase c.cache key })
      else
        (some e.data,
         { c with cache :=
             cacheModify c.cache key (fun x => { x with last_accessed := now }) })

/-- `AIResponseCache.set`: `ttl = ttl or self.default_ttl` (`None` and `0`
both fall back to the default), evict the LRU entry whenever the map is at
or beyond `max_size`, then store the new entry with
`expires_at = now + ttl`. -/
def AIResponseCache.set {κ α : Type} [DecidableEq κ] (c : AIResponseCache κ α)
    (key : κ) (data : α) (ttl : Option ℤ) (now : ℤ) : AIResponseCache κ α :=
  let t : ℤ := match ttl with
    | none => c.default_ttl
    | some t => if t = 0 then c.default_ttl else t
  let base := if c.max_size ≤ c.cache.length then evictLru c.cache else c.cache
  { c with cache := cacheInsert base key ⟨data, now, now, now + t⟩ }

/-- `AIResponseCache.invalidate`: remove one key, reporting whether it was
present. -/
def AIResponseCache.invalidate {κ α : Type} [DecidableEq κ]
    (c : AIResponseCache κ α) (key : κ) : Bool × AIResponseCache κ α :=
  match cacheLookup c.cache key with
  | some _ => (true, { c with cache := cacheErase c.cache key })
  | none => (false, c)

/-- `AIResponseCache.invalidate_pattern` key test: split the pattern on the
wildcard marker and require every literal segment to be a substring of the
key. -/
def patternHit (pattern key : String) : Bool :=
  (pattern.splitOn "*").all (fun part => decide (part.data <:+: key.data))

/-- `AIResponseCache.invalidate_pattern`: drop every matching entry and
report how many were dropped. -/
def AIResponseCache.invalidatePattern {α : Type}
    (c : AIResponseCache String α) (pattern : String) :
    ℕ × AIResponseCache String α :=
  let doomed := c.cache.filter (fun kv => patternHit pattern kv.1)
  (doomed.length,
   { c with cache := c.cache.filter (fun kv => ¬ patternHit pattern kv.1) })

/-- `AIResponseCache.clear`. -/
def AIResponseCache.clear {κ α : Type} (c : AIResponseCache κ α) :
    AIResponseCache κ α :=
  { c with cache := [] }

/-! ## The rate limiter (`rate_limiter.py`) -/

/-- 60 seconds, in tenths of a second. -/
def minuteWindow : ℤ := 600

/-- 86400 seconds, in tenths of a second. -/
def dayWindow : ℤ := 864000

/-- `GeminiRateLimiter` state: the two timestamp lists plus the two limits
(defaults 15 per minute, 1500 per day). -/
structure GeminiRateLimiter where
  max_per_minute : ℕ := 15
  max_per_day : ℕ := 1500
  minute_requests : List ℤ := []
  day_requests : List ℤ := []
deriving DecidableEq, Repr

/-- `_cleanup_old_requests` for one window: keep timestamps with
`now - t < window`. -/
def cleanupWindow (l : List ℤ) (window now : ℤ) : List ℤ :=
  l.filter (fun t => now - t < window)

/-- Outcome of `acquire`: admitted, or the daily-quota exception carrying
the estimated minutes until the oldest daily entry expires
(`int(wait_time / 60)` of the Python float seconds, i.e. the wait in
tenths divided by 600). -/
inductive AcquireOutcome where
  | admitted
  | quotaExceeded (minutes : ℤ)
deriving DecidableEq, Repr

/-- The minute-window `while` loop of `acquire`.  State: both (already
purged) timestamp lists, the current time and the total time slept so far.
Sleeping advances the deterministic clock by exactly the slept amount and
re-purges both lists, as the source does after `await asyncio.sleep`.
The loop needs at most one iteration per minute entry plus a final check,
which is the fuel `acquire` passes; running out of fuel is unreachable for
the sorted states arising in execution. -/
def acquireMinuteLoop (maxPerMinute : ℕ) :
    ℕ → List ℤ → List ℤ → ℤ → ℤ → List ℤ × List ℤ × ℤ × ℤ
  | 0, mins, days, now, slept => (mins, days, now, slept)
  | fuel + 1, mins, days, now, slept =>
      if maxPerMinute ≤ mins.length then
        let wait := minuteWindow - (now - mins.headD 0)
        if 0 < wait then
          let step := wait + 1
          acquireMinuteLoop maxPerMinute fuel
            (cleanupWindow mins minuteWindow (now + step))
            (cleanupWindow days dayWindow (now + step))
            (now + step) (slept + step)
        else
          (cleanupWindow mins minuteWindow now, cleanupWindow days dayWindow now,
           now, slept)
      else (mins, days, now, slept)

/-- `GeminiRateLimiter.acquire`, at deterministic time `now`.  Returns the
outcome, the new limiter state, and the total time spent blocked in the
minute-window loop.  `minute_requests[0]` on an empty list (reachable in
Python only with a zero limit, where it raises `IndexError`) is modelled by
`headD 0`. -/
def GeminiRateLimiter.acquire (rl : GeminiRateLimiter) (now : ℤ) :
    AcquireOutcome × GeminiRateLimiter × ℤ :=
  let mins := cleanupWindow rl.minute_requests minuteWindow now
  let days := cleanupWindow rl.day_requests dayWindow now
  let loopOut := acquireMinuteLoop rl.max_per_minute (mins.length + 1) mins days now 0
  let mins := loopOut.1
  let days := loopOut.2.1
  let now := loopOut.2.2.1
  let slept := loopOut.2.2.2
  if rl.max_per_day ≤ days.length then
    let wait := dayWindow - (now - days.headD 0)
    if 0 < wait then
      (.quotaExceeded (wait / 600),
       { rl with minute_requests := mins, day_requests := days }, slept)
    else
      (.admitted,
       { rl with minute_requests := mins ++ [now], day_requests := days ++ [now] },
       slept)
  else
    (.admitted,
     { rl with minute_requests := mins ++ [now], day_requests := days ++ [now] },
     slept)

/-- `GeminiRateLimiter.get_requests_remaining`, after purging. -/
def GeminiRateLimiter.getRequestsRemaining (rl : GeminiRateLimiter) (now : ℤ) :
    (ℕ × ℤ × ℕ) × (ℕ × ℤ × ℕ) :=
  let mins := cleanupWindow rl.minute_requests minuteWindow now
  let days := cleanupWindow rl.day_requests dayWindow now
  ((mins.length, (rl.max_per_minute : ℤ) - mins.length, rl.max_per_minute),
   (days.length, (rl.max_per_day : ℤ) - days.length, rl.max_per_day))

/-! ## The scoring engine (`_score_properties`) -/

/-- The `priorities` sub-dict of the buyer criteria; a missing weight
defaults to 25 at the read site. -/
structure Priorities where
  monthly_cost : Option ℚ := none
  location : Option ℚ := none
  value : Option ℚ := none
  space : Option ℚ := none
deriving DecidableEq, Repr

/-- The buyer criteria dict, restricted to the keys the service reads.
An absent optional field models an absent dict key. -/
structure Criteria where
  budget_max : Option ℚ := none
  beds_min : Option ℕ := none
  baths_min : Option ℚ := none
  priorities : Option Priorities := none
  lifestyle : Option String := none
  city_preference : Option String := none
deriving DecidableEq, Repr

/-- `max` over a value list; the empty case (where Python `max` raises) is
unreachable at every use site and returns the default 0. -/
def listMax (l : List ℚ) : ℚ := l.foldl max (l.headD 0)

/-- `min` over a value list, as `listMax`. -/
def listMin (l : List ℚ) : ℚ := l.foldl min (l.headD 0)

/-- `[float(p.total_monthly_cost) for p in properties if p.total_monthly_cost]`. -/
def presentMonthly (pool : List Property) : List ℚ :=
  pool.filterMap fun p =>
    if qTruthy p.total_monthly_cost then p.total_monthly_cost else none

/-- `[float(p.price_per_sqft) for p in properties if p.price_per_sqft]`. -/
def presentPsf (pool : List Property) : List ℚ :=
  pool.filterMap fun p =>
    if qTruthy p.price_per_sqft then p.price_per_sqft else none

/-- `[float(p.sqft) for p in properties if p.sqft]`. -/
def presentSqft (pool : List Property) : List ℚ :=
  pool.filterMap fun p => if qTruthy p.sqft then p.sqft else none

/-- Monthly-cost dimension score: lower is better; 100 when the pool has no
variance; 50 when the candidate has no (truthy) monthly cost. -/
def monthlyCostScore (pool : List Property) (p : Property) : ℚ :=
  if qTruthy p.total_monthly_cost then
    let vals := presentMonthly pool
    let mx := listMax vals
    let mn := listMin vals
    if mn < mx then 100 * (1 - (p.total_monthly_cost.getD 0 - mn) / (mx - mn))
    else 100
  else 50

/-- Value (price-per-sqft) dimension score: lower is better.  The inner
empty-list branch mirrors the source `if price_sqfts:` guard; when the
candidate itself is in the pool that list is nonempty, so the 50 default in
the empty branch (where Python would leave the score unset and fail later
with a `KeyError`) is unreachable. -/
def valueScore (pool : List Property) (p : Property) : ℚ :=
  if qTruthy p.price_per_sqft then
    let vals := presentPsf pool
    if vals ≠ [] then
      let mx := listMax vals
      let mn := listMin vals
      if mn < mx then 100 * (1 - (p.price_per_sqft.getD 0 - mn) / (mx - mn))
      else 100
    else 50
  else 50

/-- Space (sqft) dimension score: higher is better; same guards as
`valueScore`. -/
def spaceScore (pool : List Property) (p : Property) : ℚ :=
  if qTruthy p.sqft then
    let vals := presentSqft pool
    if vals ≠ [] then
      let mx := listMax vals
      let mn := listMin vals
      if mn < mx then 100 * ((p.sqft.getD 0 - mn) / (mx - mn))
      else 100
    else 50
  else 50

/-- Location dimension score: 100 on a case-insensitive substring match of
the city preference, 60 when the candidate has a (truthy) city that does
not match, 50 when it has none.  `cityPref` is already lowercased. -/
def locationScore (cityPref : String) (p : Property) : ℚ :=
  if cityPref ≠ "" ∧ strTruthy p.city ∧
      cityPref.data <:+: ((p.city.getD "").toLower).data then 100
  else if strTruthy p.city then 60
  else 50

/-- The four caller weights `(monthly_cost, location, value, space)`, each
defaulting to 25, read from the (possibly missing) priorities dict. -/
def Criteria.weights (criteria : Criteria) : ℚ × ℚ × ℚ × ℚ :=
  let pr := criteria.priorities.getD {}
  (pr.monthly_cost.getD 25, pr.location.getD 25, pr.value.getD 25,
   pr.space.getD 25)

/-- The per-dimension subscores dict. -/
structure SubScores where
  monthly_cost : ℚ
  value : ℚ
  space : ℚ
  location : ℚ
deriving DecidableEq, Repr

/-- One element of the scored list: the property, the rounded weighted
total, and the subscores. -/
structure ScoredProperty where
  property : Property
  score : ℚ
  scores : SubScores
deriving DecidableEq, Repr

/-- Python `round(x, 1)`, modelled as round-half-up to one decimal place
(Python rounds the nearest binary float half to even; no claim observes a
tie). -/
def round1 (q : ℚ) : ℚ := (round (10 * q) : ℤ) / 10

/-- Score a single pool member against the already-normalized weights
`(monthly_cost, location, value, space)` and total weight `tw`. -/
def scoreOne (pool : List Property) (cityPref : String) (w : ℚ × ℚ × ℚ × ℚ)
    (tw : ℚ) (p : Property) : ScoredProperty :=
  let s : SubScores :=
    ⟨monthlyCostScore pool p, valueScore pool p, spaceScore pool p,
     locationScore cityPref p⟩
  let total := s.monthly_cost * (w.1 / tw) + s.value * (w.2.2.1 / tw) +
    s.space * (w.2.2.2 / tw) + s.location * (w.2.1 / tw)
  ⟨p, round1 total, s⟩

/-- The scored list in pool order, before sorting.  A zero weight total is
replaced by 100 before the divisions, exactly as in the source. -/
def scoreList (pool : List Property) (criteria : Criteria) :
    List ScoredProperty :=
  let w := criteria.weights
  let tw0 := w.1 + w.2.1 + w.2.2.1 + w.2.2.2
  let tw := if tw0 = 0 then 100 else tw0
  let cityPref := (criteria.city_preference.getD "").toLower
  pool.map (scoreOne pool cityPref w tw)

/-- Descending-score order for the stable sort. -/
def scoreGe (a b : ScoredProperty) : Prop := b.score ≤ a.score

instance : DecidableRel scoreGe :=
  fun a b => inferInstanceAs (Decidable (b.score ≤ a.score))

/-- `_score_properties`: score the pool, then `sort(reverse=True)` by
score.  Python list sort is stable, so ties keep pool order; the stable
`insertionSort` models it. -/
def scoreProperties (pool : List Property) (criteria : Criteria) :
    List ScoredProperty :=
  (scoreList pool criteria).insertionSort scoreGe

/-! ## Statistics and the days-on-market distribution -/

/-- Ascending order on rationals for the stable sorts. -/
def qLe (a b : ℚ) : Prop := a ≤ b

instance : DecidableRel qLe := fun a b => inferInstanceAs (Decidable (a ≤ b))

/-- Average with the source `if xs else 0` guard. -/
def qAvg (l : List ℚ) : ℚ := if l = [] then 0 else l.sum / l.length

/-- `sorted(xs)[len(xs) // 2] if xs else 0`. -/
def qMedian (l : List ℚ) : ℚ := (l.insertionSort qLe).getD (l.length / 2) 0

/-- Increment the count for key `c` in an insertion-ordered counter dict. -/
def bumpCount : List (String × ℕ) → String → List (String × ℕ)
  | [], c => [(c, 1)]
  | kv :: rest, c =>
      if kv.1 = c then (kv.1, kv.2 + 1) :: rest else kv :: bumpCount rest c

/-- `city_counts` of `_calculate_statistics`: only truthy cities are
counted, in first-occurrence order. -/
def cityCounts (props : List Property) : List (String × ℕ) :=
  props.foldl
    (fun acc p => if strTruthy p.city then bumpCount acc (p.city.getD "") else acc)
    []

/-- CPython `max(items, key=...)`: scan keeping the current best, replacing
it only on a strictly greater count, so the first maximal key wins. -/
def maxCountScan : String × ℕ → List (String × ℕ) → String
  | best, [] => best.1
  | best, kv :: rest =>
      if best.2 < kv.2 then maxCountScan kv rest else maxCountScan best rest

/-- `most_common_city`: `None` when no city was counted. -/
def mostCommonCity (counts : List (String × ℕ)) : Option String :=
  match counts with
  | [] => none
  | kv :: rest => some (maxCountScan kv rest)

/-- The statistics dict of `_calculate_statistics`.  The `if not
properties: return {}` early exit of the source returns a dict of a
different shape; it is unreachable from the pipelines, which return before
computing statistics when the pool is empty. -/
structure Statistics where
  count : ℕ
  avg_price : ℚ
  median_price : ℚ
  min_price : ℚ
  max_price : ℚ
  avg_monthly_cost : ℚ
  avg_price_per_sqft : ℚ
  most_common_city : Option String
  cities : List String
deriving DecidableEq, Repr

/-- `_calculate_statistics`.  `[float(p.price) for p in properties if
p.price]` keeps only truthy (nonzero) prices. -/
def calculateStatistics (props : List Property) : Statistics :=
  let prices := props.filterMap fun p => if p.price ≠ 0 then some p.price else none
  let monthly := presentMonthly props
  let psf := presentPsf props
  let counts := cityCounts props
  { count := props.length
    avg_price := qAvg prices
    median_price := qMedian prices
    min_price := if prices = [] then 0 else listMin prices
    max_price := if prices = [] then 0 else listMax prices
    avg_monthly_cost := qAvg monthly
    avg_price_per_sqft := qAvg psf
    most_common_city := mostCommonCity counts
    cities := counts.map (·.1) }

/-- `city_distribution` of `_calculate_market_stats`: every property is
counted, falsy cities under the key `"Unknown"`. -/
def cityDistribution (props : List Property) : List (String × ℕ) :=
  props.foldl
    (fun acc p =>
      bumpCount acc (if strTruthy p.city then p.city.getD "" else "Unknown"))
    []

/-- Ascending order on integers for the stable sorts. -/
def zLe (a b : ℤ) : Prop := a ≤ b

instance : DecidableRel zLe := fun a b => inferInstanceAs (Decidable (a ≤ b))

/-- The stats dict of `_calculate_market_stats`. -/
structure MarketStats where
  total_properties : ℕ
  avg_price : ℚ
  median_price : ℚ
  min_price : ℚ
  max_price : ℚ
  avg_monthly_cost : ℚ
  avg_price_per_sqft : ℚ
  avg_days_on_market : ℚ
  median_days_on_market : ℤ
  city_distribution : List (String × ℕ)
deriving DecidableEq, Repr

/-- The `days_on_market` values, filtered with `is not None` (a zero value
is kept, unlike the truthiness filters). -/
def domValues (props : List Property) : List ℤ :=
  props.filterMap (·.days_on_market)

/-- `_calculate_market_stats`. -/
def calculateMarketStats (props : List Property) : MarketStats :=
  let prices := props.filterMap fun p => if p.price ≠ 0 then some p.price else none
  let monthly := presentMonthly props
  let psf := presentPsf props
  let dom := domValues props
  { total_properties := props.length
    avg_price := qAvg prices
    median_price := qMedian prices
    min_price := if prices = [] then 0 else listMin prices
    max_price := if prices = [] then 0 else listMax prices
    avg_monthly_cost := qAvg monthly
    avg_price_per_sqft := qAvg psf
    avg_days_on_market :=
      if dom = [] then 0 else ((dom.sum : ℚ) / dom.length)
    median_days_on_market := (dom.insertionSort zLe).getD (dom.length / 2) 0
    city_distribution := cityDistribution props }

/-- The `_analyze_dom_distribution` result dict.  In the empty case the
source omits the `fast_moving_pct` and `total_analyzed` keys; its readers
use `.get(..., 0)` defaults, matching the zero fields here. -/
structure DomDistribution where
  avg_dom : ℚ
  fast_moving : ℕ
  moderate : ℕ
  slow_moving : ℕ
  fast_moving_pct : ℚ
  market_temperature : String
  total_analyzed : ℕ
deriving DecidableEq, Repr

/-- `_analyze_dom_distribution`: bucket days-on-market into fast (≤ 14),
moderate (14 < d ≤ 45) and slow (> 45), and classify the market
temperature from the fast percentage with the thresholds 60/40/20. -/
def analyzeDomDistribution (props : List Property) : DomDistribution :=
  let dom := domValues props
  if dom = [] then ⟨0, 0, 0, 0, 0, "unknown", 0⟩
  else
    let fast := (dom.filter (fun d => decide (d ≤ 14))).length
    let moderate := (dom.filter (fun d => decide (14 < d ∧ d ≤ 45))).length
    let slow := (dom.filter (fun d => decide (45 < d))).length
    let total := dom.length
    let pct : ℚ := if 0 < total then (fast : ℚ) / total * 100 else 0
    let temp :=
      if 60 < pct then "hot"
      else if 40 < pct then "warm"
      else if 20 < pct then "cool"
      else "cold"
    ⟨(dom.sum : ℚ) / dom.length, fast, moderate, slow, pct, temp, total⟩

/-! ## Pipeline plumbing shared by the four analysis kinds

The external model call is opaque: each pipeline takes a `GenOutcome`
describing what `model.generate_content(...).text` did for this request,
abstracted up to the JSON extraction the parser performs (`re.search` for a
braced span, then `json.loads`).  Errors that the pipelines raise are
`PipeError`; exceptions caught by the catch-all `except Exception` inside
the pipelines are recorded structurally as `CaughtError` (the source stores
`str(e)`). -/

/-- Errors a pipeline raises to its caller. -/
inductive PipeError where
  | invalidArgument (msg : String)
  | notFound (msg : String)
  | typeError (msg : String)
deriving DecidableEq, Repr

/-- Exceptions absorbed by the catch-all handler and recorded in the
result `error` field.  `quotaExceeded` is the limiter exception with the
estimated minutes it reports. -/
inductive CaughtError where
  | quotaExceeded (minutes : ℤ)
  | modelFailure (msg : String)
deriving DecidableEq, Repr

/-- The model reply text, abstracted to what the parser extracts from it:
no braced span at all, a braced span that fails `json.loads`, or a parsed
JSON object of the kind-specific shape `J`. -/
inductive AIReply (J : Type) where
  | noJson (text : String)
  | badJson (text : String)
  | json (text : String) (j : J)
deriving DecidableEq, Repr

/-- Outcome of the external model call. -/
inductive GenOutcome (J : Type) where
  | raised (msg : String)
  | ok (reply : AIReply J)
deriving DecidableEq, Repr

/-- Python money format `"{:,.0f}"`, modelled without thousands separators
and with half-up tie rounding; no claim observes formatted text. -/
def fmtUSD (q : ℚ) : String := "$" ++ toString (round q : ℤ)

/-- Python `"{:.0f}"`. -/
def fmtF0 (q : ℚ) : String := toString (round q : ℤ)

/-- Python `"{:.2f}"`, rendered as the count of hundredths. -/
def fmtF2 (q : ℚ) : String := toString (round (100 * q) : ℤ)

/-- Python `str()` / f-string interpolation of a numeric value, rendered as
the exact rational. -/
def fmtQ (q : ℚ) : String := toString q.num ++
  (if q.den = 1 then "" else "/" ++ toString q.den)

/-- Truthiness of an optional integer-column value. -/
def nTruthy : Option ℕ → Bool
  | none => false
  | some n => decide (n ≠ 0)

/-! ## Fetching (`_fetch_properties`) -/

/-- The filter dict accepted by `_fetch_properties`; an absent optional
field models an absent dict key. -/
structure Filters where
  price_min : Option ℚ := none
  price_max : Option ℚ := none
  beds : Option ℕ := none
  baths : Option ℚ := none
  city : Option String := none
deriving DecidableEq, Repr

/-- The WHERE clause built by `_fetch_properties`: each condition is added
only when the filter key is present and truthy; SQL comparisons against a
NULL column exclude the row, and `ILIKE` is a case-insensitive substring
match that excludes NULL cities. -/
def matchesFilters (f : Filters) (p : Property) : Bool :=
  (if qTruthy f.price_min then decide (f.price_min.getD 0 ≤ p.price) else true) &&
  (if qTruthy f.price_max then decide (p.price ≤ f.price_max.getD 0) else true) &&
  (if nTruthy f.beds then
    (match p.beds with
     | some b => decide (f.beds.getD 0 ≤ b)
     | none => false)
   else true) &&
  (if qTruthy f.baths then
    (match p.baths with
     | some b => decide (f.baths.getD 0 ≤ b)
     | none => false)
   else true) &&
  (if strTruthy f.city then
    (match p.city with
     | some c => decide ((f.city.getD "").toLower.data <:+: c.toLower.data)
     | none => false)
   else true)

/-- Ascending `ORDER BY total_monthly_cost` key; a NULL cost sorts first
(the SQLite default — the backend NULL ordering is unspecified and no claim
depends on it). -/
def mcSortKey (p : Property) : WithBot ℚ := p.total_monthly_cost

/-- The fetch ordering. -/
def mcLe (a b : Property) : Prop := mcSortKey a ≤ mcSortKey b

instance : DecidableRel mcLe :=
  fun a b => inferInstanceAs (Decidable (mcSortKey a ≤ mcSortKey b))

/-- `_fetch_properties`: filter, order by ascending total monthly cost,
and apply the limit.  A falsy `filters` argument applies no condition,
which coincides with filtering by the all-absent `Filters`. -/
def fetchProperties (db : List Property) (filters : Option Filters)
    (limit : ℕ) : List Property :=
  ((db.filter (matchesFilters (filters.getD {}))).insertionSort mcLe).take limit

/-! ## The comparison pipeline (`compare_properties`) -/

/-- One element of the `properties` reference list built by both the
parsed and the fallback comparison paths.  The `monthly_cost` and
`price_per_sqft` fields apply `float(x) if x else None`, so a zero column
value becomes `None`; `sqft` is passed through raw. -/
structure PropertyDetail where
  property_id : ℕ
  property_letter : Char
  address : String
  city : Option String
  price : ℚ
  monthly_cost : Option ℚ
  sqft : Option ℚ
  price_per_sqft : Option ℚ
deriving DecidableEq, Repr

/-- Build the detail list: letters `chr(65 + i)` follow list position. -/
def mkPropertyDetails (props : List Property) : List PropertyDetail :=
  props.enum.map fun t =>
    { property_id := t.2.id
      property_letter := Char.ofNat (65 + t.1)
      address := t.2.address
      city := t.2.city
      price := t.2.price
      monthly_cost :=
        if qTruthy t.2.total_monthly_cost then t.2.total_monthly_cost else none
      sqft := t.2.sqft
      price_per_sqft :=
        if qTruthy t.2.price_per_sqft then t.2.price_per_sqft else none }

/-- A `{"property_letter": ..., "reason": ...}` winner entry as built by
the fallback path. -/
structure WinnerEntry where
  property_letter : Char
  reason : String
deriving DecidableEq, Repr

/-- The `winners` value of a comparison result: the parsed sub-object is
passed through verbatim (modelled as its raw text), the `{}` default, or
the fallback-computed two-category dict. -/
inductive WinnersVal where
  | fromModel (raw : String)
  | emptyDict
  | computed (monthly_budget : WinnerEntry) (space_value : WinnerEntry)
deriving DecidableEq, Repr

/-- The `overall_recommendation` value, analogous to `WinnersVal`. -/
inductive OverallVal where
  | fromModel (raw : String)
  | emptyDict
  | computed (e : WinnerEntry)
deriving DecidableEq, Repr

/-- The comparison result dict. -/
structure CompareResult where
  summary : String
  winners : WinnersVal
  overall_recommendation : OverallVal
  properties : List PropertyDetail
  confidence : String
  error : Option CaughtError := none
  from_cache : Bool := false
deriving DecidableEq, Repr

/-- The JSON shape the comparison parser reads; sub-objects are passed
through verbatim as raw text. -/
structure ComparisonJson where
  summary : Option String := none
  winners : Option String := none
  overall_recommendation : Option String := none
deriving DecidableEq, Repr

/-- `min(enumerate(properties), key=...)` scan: CPython `min` replaces the
current best only on a strictly smaller key, so the first minimal index
wins. -/
def argminScan (key : Property → WithTop ℚ) :
    ℕ × Property → List (ℕ × Property) → ℕ × Property
  | best, [] => best
  | best, x :: rest =>
      if key x.2 < key best.2 then argminScan key x rest
      else argminScan key best rest

/-- First index-and-property minimizing `key`; `none` on the empty list
(where Python `min` raises, unreachable because comparison pools have at
least two members). -/
def argminBy (key : Property → WithTop ℚ) :
    List Property → Option (ℕ × Property)
  | [] => none
  | p :: rest =>
      some (argminScan key (0, p) (rest.enum.map fun t => (t.1 + 1, t.2)))

/-- `x.total_monthly_cost if x.total_monthly_cost else float("inf")`. -/
def monthlyKey (p : Property) : WithTop ℚ :=
  if qTruthy p.total_monthly_cost then ((p.total_monthly_cost.getD 0 : ℚ) : WithTop ℚ)
  else ⊤

/-- `x.price_per_sqft if x.price_per_sqft else float("inf")`. -/
def psfKey (p : Property) : WithTop ℚ :=
  if qTruthy p.price_per_sqft then ((p.price_per_sqft.getD 0 : ℚ) : WithTop ℚ)
  else ⊤

/-- `_generate_fallback_comparison`.  The winner reason f-strings format
the raw winner columns, so the call raises `TypeError` when the monthly
winner's `total_monthly_cost` is `None`, or (checked second, in dict
evaluation order) when the value winner's `price_per_sqft` is `None`.
This is reachable: when every compared listing lacks the column, each key
is `float("inf")` and the first listing — whose column is `None` — wins.
The raise is modelled as `Except.error` carrying the Python message.  An
empty pool makes `min` raise `ValueError`; the pipeline guarantees at
least two listings, so that branch is unreachable from it. -/
def fallbackComparison (props : List Property) : Except String CompareResult :=
  let details := mkPropertyDetails props
  match argminBy monthlyKey props, argminBy psfKey props with
  | some mw, some vw =>
      match mw.2.total_monthly_cost with
      | none => .error "unsupported format string passed to NoneType.__format__"
      | some mc =>
          match vw.2.price_per_sqft with
          | none =>
              .error "unsupported format string passed to NoneType.__format__"
          | some psf =>
              let monthlyWinner : WinnerEntry :=
                ⟨Char.ofNat (65 + mw.1), "Lowest monthly cost at " ++ fmtUSD mc⟩
              let valueWinner : WinnerEntry :=
                ⟨Char.ofNat (65 + vw.1),
                 "Best value at $" ++ fmtF2 psf ++ "/sqft"⟩
              .ok
                { summary := "Comparing " ++ toString props.length ++
                    " properties based on available data."
                  winners := .computed monthlyWinner valueWinner
                  overall_recommendation := .computed monthlyWinner
                  properties := details
                  confidence := "low" }
  | _, _ => .error "min() arg is an empty sequence"

/-- `_parse_comparison_response`: a reply with no braced span yields the
empty parse, a `json.loads` failure falls back (so a `TypeError` raised by
the fallback generator escapes this function — the inner handler catches
only `JSONDecodeError`), and a parsed object fills the fields with the
source defaults.  Confidence is high exactly when the `winners` key was
present. -/
def parseComparisonResponse (reply : AIReply ComparisonJson)
    (props : List Property) : Except String CompareResult :=
  match reply with
  | .badJson _ => fallbackComparison props
  | .noJson _ =>
      .ok
        { summary := "Comparison of selected properties"
          winners := .emptyDict
          overall_recommendation := .emptyDict
          properties := mkPropertyDetails props
          confidence := "medium" }
  | .json _ j =>
      .ok
        { summary := j.summary.getD "Comparison of selected properties"
          winners := match j.winners with
            | some w => .fromModel w
            | none => .emptyDict
          overall_recommendation := match j.overall_recommendation with
            | some o => .fromModel o
            | none => .emptyDict
          properties := mkPropertyDetails props
          confidence := if j.winners.isSome then "high" else "medium" }

/-- Ascending order on ids for the cache-key sort. -/
def nLe (a b : ℕ) : Prop := a ≤ b

instance : DecidableRel nLe := fun a b => inferInstanceAs (Decidable (a ≤ b))

/-- The normalized comparison cache key: the kind tag plus the md5 digest
of the stable JSON serialization of `{"property_ids": sorted(ids),
"aspects": aspects or []}` is modelled as the parameter tuple itself (the
digest is injective for the purposes of this model). -/
def compareCacheKey (ids : List ℕ) (aspects : Option (List String)) :
    List ℕ × List String :=
  (ids.insertionSort nLe, aspects.getD [])

/-- `compare_properties`.  Returns the result together with the updated
cache and limiter states; the cache write happens at `now` plus the time
the limiter slept (the model call itself is instantaneous in this model).
The post-NotFound reorder `[properties_dict[pid] for pid in property_ids]`
is modelled by `filterMap`, whose silent-drop case coincides with the
unreachable `KeyError`.  When the try body raises (quota exception, model
failure, or a `TypeError` escaping the parse helper's fallback), the
catch-all handler runs the fallback generator and attaches the caught
error; if the generator itself raises its formatting `TypeError`, that
exception is uncaught and the whole request fails. -/
def compareProperties (db : List Property)
    (cache : AIResponseCache (List ℕ × List String) CompareResult)
    (rl : GeminiRateLimiter) (property_ids : List ℕ)
    (aspects : Option (List String)) (now : ℤ)
    (gen : GenOutcome ComparisonJson) :
    Except PipeError
      (CompareResult × AIResponseCache (List ℕ × List String) CompareResult ×
        GeminiRateLimiter) :=
  if property_ids.length < 2 then
    .error (.invalidArgument "At least 2 properties required for comparison")
  else if 5 < property_ids.length then
    .error (.invalidArgument "Maximum 5 properties can be compared at once")
  else
    let key := compareCacheKey property_ids aspects
    let looked := cache.get key now
    match looked.1 with
    | some r => .ok ({ r with from_cache := true }, looked.2, rl)
    | none =>
        let props := db.filter fun p => property_ids.contains p.id
        if props.length ≠ property_ids.length then
          .error (.notFound "One or more properties not found")
        else
          let ordered := property_ids.filterMap fun pid =>
            props.find? fun p => p.id == pid
          let acq := rl.acquire now
          let tried : Except CaughtError CompareResult := match acq.1 with
            | .quotaExceeded m => .error (.quotaExceeded m)
            | .admitted => match gen with
                | .raised msg => .error (.modelFailure msg)
                | .ok reply => match parseComparisonResponse reply ordered with
                    | .ok r => .ok r
                    | .error msg => .error (.modelFailure msg)
          match tried with
          | .ok result =>
              let cache2 := looked.2.set key result (some 72000) (now + acq.2.2)
              .ok ({ result with from_cache := false }, cache2, acq.2.1)
          | .error e =>
              match fallbackComparison ordered with
              | .error msg => .error (.typeError msg)
              | .ok fb =>
                  let result := { fb with error := some e }
                  let cache2 := looked.2.set key result (some 72000) (now + acq.2.2)
                  .ok ({ result with from_cache := false }, cache2, acq.2.1)

/-! ## The summary pipeline (`summarize_properties`) -/

/-- The `buyer_recommendations` sub-dict; the all-absent value models the
`{}` default. -/
structure BuyerRecs where
  first_time_buyer : Option String := none
  family : Option String := none
  investor : Option String := none
deriving DecidableEq, Repr

/-- The JSON shape the summary parser reads. -/
structure SummaryJson where
  summary : Option String := none
  key_insights : Option (List String) := none
  buyer_recommendations : Option BuyerRecs := none
deriving DecidableEq, Repr

/-- The summary result dict.  `statistics = none` models the `{}` of the
empty-pool early return (every other path stores the computed
statistics). -/
structure SummaryResult where
  summary : String
  key_insights : List String
  buyer_recommendations : BuyerRecs := {}
  statistics : Option Statistics
  properties_analyzed : ℕ
  confidence : String
  error : Option CaughtError := none
  from_cache : Bool := false
deriving DecidableEq, Repr

/-- `_parse_summary_response`: a reply with no braced span uses the whole
text as the summary; a `json.loads` failure returns the basic structure
with medium confidence; a parsed object fills the fields with the source
defaults, high confidence from ten properties up. -/
def parseSummaryResponse (reply : AIReply SummaryJson) (stats : Statistics)
    (propertyCount : ℕ) : SummaryResult :=
  match reply with
  | .badJson text =>
      { summary := text
        key_insights := []
        statistics := some stats
        properties_analyzed := propertyCount
        confidence := "medium" }
  | .noJson text =>
      { summary := text
        key_insights := []
        statistics := some stats
        properties_analyzed := propertyCount
        confidence := if 10 ≤ propertyCount then "high" else "medium" }
  | .json text j =>
      { summary := j.summary.getD text
        key_insights := j.key_insights.getD []
        buyer_recommendations := j.buyer_recommendations.getD {}
        statistics := some stats
        properties_analyzed := propertyCount
        confidence := if 10 ≤ propertyCount then "high" else "medium" }

/-- `_generate_fallback_summary`.  A missing most-common city interpolates
as the text `None`, matching the Python f-string of a `None` value (the
`"Various cities"` default of `.get` never fires because the key is always
present). -/
def fallbackSummary (props : List Property) (stats : Statistics) :
    SummaryResult :=
  { summary := "Found " ++ toString props.length ++
      " properties in Salt Lake Valley. Average price is " ++
      fmtUSD stats.avg_price ++ " with monthly costs averaging " ++
      fmtUSD stats.avg_monthly_cost ++ "."
    key_insights :=
      ["Price range: " ++ fmtUSD stats.min_price ++ " - " ++
         fmtUSD stats.max_price,
       "Most properties in: " ++ stats.most_common_city.getD "None",
       "Average price per sqft: $" ++ fmtF2 stats.avg_price_per_sqft]
    statistics := some stats
    properties_analyzed := props.length
    confidence := "low" }

/-- The normalized summary cache key, `("summary", {"filters": filters or
{}, "max_properties": n})` with the digest modelled as the tuple. -/
def summaryCacheKey (filters : Option Filters) (max_properties : ℕ) :
    Filters × ℕ :=
  (filters.getD {}, max_properties)

/-- `summarize_properties`.  The function itself raises nothing; the
catch-all converts both the limiter quota exception and a model failure
into a fallback result carrying the error. -/
def summarizeProperties (db : List Property)
    (cache : AIResponseCache (Filters × ℕ) SummaryResult)
    (rl : GeminiRateLimiter) (filters : Option Filters)
    (max_properties : ℕ) (now : ℤ) (gen : GenOutcome SummaryJson) :
    SummaryResult × AIResponseCache (Filters × ℕ) SummaryResult ×
      GeminiRateLimiter :=
  let key := summaryCacheKey filters max_properties
  let looked := cache.get key now
  match looked.1 with
  | some r => ({ r with from_cache := true }, looked.2, rl)
  | none =>
      let props := fetchProperties db filters max_properties
      if props = [] then
        ({ summary := "No properties found matching your criteria."
           key_insights := []
           statistics := none
           properties_analyzed := 0
           confidence := "low"
           from_cache := false }, looked.2, rl)
      else
        let stats := calculateStatistics props
        let acq := rl.acquire now
        let result := match acq.1 with
          | .quotaExceeded m =>
              { fallbackSummary props stats with error := some (.quotaExceeded m) }
          | .admitted => match gen with
              | .raised msg =>
                  { fallbackSummary props stats with
                      error := some (.modelFailure msg) }
              | .ok reply => parseSummaryResponse reply stats props.length
        let cache2 := looked.2.set key result (some 36000) (now + acq.2.2)
        ({ result with from_cache := false }, cache2, acq.2.1)

/-! ## The recommendation pipeline (`recommend_properties`) -/

/-- One recommendation entry. -/
structure Recommendation where
  property_id : ℕ
  address : String
  city : Option String
  price : ℚ
  match_score : ℚ
  match_explanation : String
  pros : List String
  cons : List String
deriving DecidableEq, Repr

/-- One entry of the parsed `recommendations` JSON array. -/
structure RecItemJson where
  match_explanation : Option String := none
  pros : Option (List String) := none
  cons : Option (List String) := none
deriving DecidableEq, Repr

/-- The JSON shape the recommendation parser reads. -/
structure RecommendJson where
  recommendations : Option (List RecItemJson) := none
deriving DecidableEq, Repr

/-- The recommendation result dict. -/
structure RecommendResult where
  recommendations : List Recommendation
  message : String
  confidence : String
  error : Option CaughtError := none
  from_cache : Bool := false
deriving DecidableEq, Repr

/-- The structured branch of `_parse_recommendation_response`: zip the
parsed items with the scored properties (the `i < len(scored_properties)`
guard is list truncation). -/
def recommendFromItems (items : List RecItemJson)
    (scored : List ScoredProperty) : RecommendResult :=
  let recs := (items.zip scored).map fun t =>
    { property_id := t.2.property.id
      address := t.2.property.address
      city := t.2.property.city
      price := t.2.property.price
      match_score := t.2.score
      match_explanation := t.1.match_explanation.getD ""
      pros := t.1.pros.getD []
      cons := t.1.cons.getD [] }
  { recommendations := recs
    message := "Found " ++ toString recs.length ++ " great matches for you!"
    confidence := if 3 ≤ recs.length then "high" else "medium" }

/-- `_generate_fallback_recommendations`: the top three scored properties
with templated explanations. -/
def fallbackRecommendations (scored : List ScoredProperty) :
    RecommendResult :=
  let recs := (scored.take 3).map fun item =>
    { property_id := item.property.id
      address := item.property.address
      city := item.property.city
      price := item.property.price
      match_score := item.score
      match_explanation := "This property scored " ++ fmtQ item.score ++
        "/100 based on your criteria."
      pros :=
        [if qTruthy item.property.total_monthly_cost then
           "Monthly cost: " ++ fmtUSD (item.property.total_monthly_cost.getD 0)
         else "Affordable",
         if nTruthy item.property.beds then
           toString (item.property.beds.getD 0) ++ " bedrooms, " ++
             (match item.property.baths with
              | some b => fmtQ b
              | none => "None") ++ " bathrooms"
         else "Good layout",
         if qTruthy item.property.sqft then
           fmtQ (item.property.sqft.getD 0) ++ " sqft of living space"
         else "Spacious"]
      cons := ["Limited details available for deeper analysis"]
      : Recommendation }
  { recommendations := recs
    message := "Found " ++ toString recs.length ++
      " properties matching your criteria."
    confidence := "medium" }

/-- `_parse_recommendation_response`: no braced span parses as an empty
item list; a `json.loads` failure falls back. -/
def parseRecommendationResponse (reply : AIReply RecommendJson)
    (scored : List ScoredProperty) : RecommendResult :=
  match reply with
  | .badJson _ => fallbackRecommendations scored
  | .noJson _ => recommendFromItems [] scored
  | .json _ j => recommendFromItems (j.recommendations.getD []) scored

/-- The hard filters `recommend_properties` derives from the criteria;
each is set only when the criterion is present and truthy. -/
def buildRecommendFilters (criteria : Criteria) : Filters :=
  { price_max := if qTruthy criteria.budget_max then criteria.budget_max else none
    beds := if nTruthy criteria.beds_min then criteria.beds_min else none
    baths := if qTruthy criteria.baths_min then criteria.baths_min else none
    city := if strTruthy criteria.city_preference then criteria.city_preference
      else none }

/-- `recommend_properties`.  The cache key is the whole criteria dict. -/
def recommendProperties (db : List Property)
    (cache : AIResponseCache Criteria RecommendResult)
    (rl : GeminiRateLimiter) (criteria : Criteria)
    (max_recommendations : ℕ) (now : ℤ) (gen : GenOutcome RecommendJson) :
    RecommendResult × AIResponseCache Criteria RecommendResult ×
      GeminiRateLimiter :=
  let looked := cache.get criteria now
  match looked.1 with
  | some r => ({ r with from_cache := true }, looked.2, rl)
  | none =>
      let props := fetchProperties db (some (buildRecommendFilters criteria)) 20
      if props = [] then
        ({ recommendations := []
           message := "No properties found matching your criteria."
           confidence := "low"
           from_cache := false }, looked.2, rl)
      else
        let scored := scoreProperties props criteria
        let top := scored.take max_recommendations
        let acq := rl.acquire now
        let result := match acq.1 with
          | .quotaExceeded m =>
              { fallbackRecommendations top with
                  error := some (.quotaExceeded m) }
          | .admitted => match gen with
              | .raised msg =>
                  { fallbackRecommendations top with
                      error := some (.modelFailure msg) }
              | .ok reply => parseRecommendationResponse reply top
        let cache2 := looked.2.set criteria result (some 18000) (now + acq.2.2)
        ({ result with from_cache := false }, cache2, acq.2.1)

/-! ## The market-analysis pipeline (`analyze_market_trends`) -/

/-- The JSON shape the market parser reads. -/
structure MarketJson where
  analysis : Option String := none
  trends : Option (List String) := none
  buyer_opportunities : Option String := none
  seller_considerations : Option String := none
  price_outlook : Option String := none
deriving DecidableEq, Repr

/-- The market-analysis result dict.  The `none` fields model dict keys
the empty-region early return omits entirely. -/
structure MarketResult where
  analysis : String
  trends : List String
  buyer_opportunities : Option String
  seller_considerations : Option String
  price_outlook : Option String
  statistics : Option MarketStats
  market_temperature : Option String
  dom_distribution : Option DomDistribution
  confidence : String
  error : Option CaughtError := none
  from_cache : Bool := false
deriving DecidableEq, Repr

/-- The `temp_descriptions` lookup of the fallback generator. -/
def tempDescription (t : String) : Option String :=
  if t = "hot" then some "a strong seller\x27s market with high demand"
  else if t = "warm" then some "a balanced market with moderate activity"
  else if t = "cool" then some "a buyer-friendly market with good inventory"
  else if t = "cold" then some "a buyer\x27s market with ample selection"
  else none

/-- `_generate_fallback_market_analysis`.  The `properties` parameter is
unused in the source body as well.  The analysis text interpolates
`city_distribution.get(next(iter(city_distribution), "local"), "local")`,
which is the count of the first city (or the text `local` when there is
none). -/
def fallbackMarketAnalysis (_props : List Property) (stats : MarketStats)
    (domDist : DomDistribution) : MarketResult :=
  let firstCityCount : String := match stats.city_distribution with
    | [] => "local"
    | kv :: _ => toString kv.2
  let hotOrWarm := domDist.market_temperature = "hot" ∨
    domDist.market_temperature = "warm"
  { analysis := "The " ++ firstCityCount ++ " market shows " ++
      (tempDescription domDist.market_temperature).getD "moderate activity" ++
      " with " ++ toString stats.total_properties ++
      " properties available. Average price is " ++ fmtUSD stats.avg_price ++
      " with properties spending an average of " ++
      fmtF0 stats.avg_days_on_market ++ " days on market."
    trends :=
      ["Average price: " ++ fmtUSD stats.avg_price,
       "Days on market: " ++ fmtF0 stats.avg_days_on_market ++ " days average",
       fmtF0 domDist.fast_moving_pct ++
         "% of properties selling quickly (< 14 days)"]
    buyer_opportunities := some (if hotOrWarm then
        "Act quickly on new listings. Competition is moderate to high."
      else "Take time to negotiate. Inventory levels favor buyers.")
    seller_considerations := some (if hotOrWarm then
        "Good time to sell. Price competitively for quick sales."
      else "Price carefully and consider incentives to attract buyers.")
    price_outlook :=
      some "Market conditions suggest stable pricing in the near term."
    statistics := some stats
    market_temperature := some domDist.market_temperature
    dom_distribution := some domDist
    confidence := "medium" }

/-- `_parse_market_analysis_response`: only a successfully extracted and
parsed JSON object yields the structured result; both the missing-span
case and any parse exception fall through to the fallback generator called
with an empty property list and no error attached. -/
def parseMarketAnalysisResponse (reply : AIReply MarketJson)
    (stats : MarketStats) (domDist : DomDistribution) : MarketResult :=
  match reply with
  | .json _ j =>
      { analysis := j.analysis.getD ""
        trends := j.trends.getD []
        buyer_opportunities := some (j.buyer_opportunities.getD "")
        seller_considerations := some (j.seller_considerations.getD "")
        price_outlook := some (j.price_outlook.getD "")
        statistics := some stats
        market_temperature := some domDist.market_temperature
        dom_distribution := some domDist
        confidence := "high" }
  | .noJson _ => fallbackMarketAnalysis [] stats domDist
  | .badJson _ => fallbackMarketAnalysis [] stats domDist

/-- The normalized market cache key `(region or "all", time_period,
focus or "general")`, with the digest modelled as the tuple. -/
def marketCacheKey (region : Option String) (time_period : String)
    (focus : Option String) : String × String × String :=
  (if strTruthy region then region.getD "" else "all", time_period,
   if strTruthy focus then focus.getD "" else "general")

/-- `analyze_market_trends`. -/
def analyzeMarketTrends (db : List Property)
    (cache : AIResponseCache (String × String × String) MarketResult)
    (rl : GeminiRateLimiter) (region : Option String) (time_period : String)
    (focus : Option String) (now : ℤ) (gen : GenOutcome MarketJson) :
    MarketResult × AIResponseCache (String × String × String) MarketResult ×
      GeminiRateLimiter :=
  let key := marketCacheKey region time_period focus
  let looked := cache.get key now
  match looked.1 with
  | some r => ({ r with from_cache := true }, looked.2, rl)
  | none =>
      let filters : Filters :=
        { city := if strTruthy region then region else none }
      let props := fetchProperties db (some filters) 200
      if props = [] then
        ({ analysis := "No properties found in the specified region."
           trends := []
           buyer_opportunities := none
           seller_considerations := none
           price_outlook := none
           statistics := none
           market_temperature := none
           dom_distribution := none
           confidence := "low"
           from_cache := false }, looked.2, rl)
      else
        let stats := calculateMarketStats props
        let domDist := analyzeDomDistribution props
        let acq := rl.acquire now
        let result := match acq.1 with
          | .quotaExceeded m =>
              { fallbackMarketAnalysis props stats domDist with
                  error := some (.quotaExceeded m) }
          | .admitted => match gen with
              | .raised msg =>
                  { fallbackMarketAnalysis props stats domDist with
                      error := some (.modelFailure msg) }
              | .ok reply => parseMarketAnalysisResponse reply stats domDist
        let cache2 := looked.2.set key result (some 144000) (now + acq.2.2)
        ({ result with from_cache := false }, cache2, acq.2.1)

/-! ## Operation sequences over one cache (for the size invariant) -/

/-- One public cache operation, with its call-time clock value where the
source reads `time.time()`. -/
inductive CacheOp (α : Type) where
  | get (key : String) (now : ℤ)
  | set (key : String) (data : α) (ttl : Option ℤ) (now : ℤ)
  | invalidate (key : String)
  | invalidatePattern (pattern : String)
  | clear
deriving Repr

/-- Apply one operation to the cache state. -/
def CacheOp.apply {α : Type} (c : AIResponseCache String α) :
    CacheOp α → AIResponseCache String α
  | .get key now => (c.get key now).2
  | .set key data ttl now => c.set key data ttl now
  | .invalidate key => (c.invalidate key).2
  | .invalidatePattern pattern => (c.invalidatePattern pattern).2
  | .clear => c.clear

/-- Run a sequence of operations from a starting state. -/
def applyOps {α : Type} (c : AIResponseCache String α)
    (ops : List (CacheOp α)) : AIResponseCache String α :=
  ops.foldl CacheOp.apply c

/-! ## Concrete instances used by the witnesses and counterexamples -/

/-- A resolvable listing with id 7. -/
def propA : Property :=
  { id := 7, address := "700 Fort Union Blvd", city := some "Midvale",
    price := 450000, beds := some 3, baths := some 2, sqft := some 1600,
    price_per_sqft := some 281, hoa_fee := none,
    total_monthly_cost := some 2600, days_on_market := some 12,
    property_type := some "Single Family" }

/-- A resolvable listing with id 42. -/
def propB : Property :=
  { id := 42, address := "42 Main St", city := some "Sandy",
    price := 500000, beds := some 4, baths := some 3, sqft := some 2000,
    price_per_sqft := some 250, hoa_fee := some 50,
    total_monthly_cost := some 2900, days_on_market := some 30,
    property_type := some "Condo" }

/-- A two-listing database. -/
def dbAB : List Property := [propA, propB]

/-- A bare listing template for scoring pools. -/
def bareProp (i : ℕ) (mc : Option ℚ) : Property :=
  { id := i, address := "x", city := none, price := 100, beds := none,
    baths := none, sqft := none, price_per_sqft := none, hoa_fee := none,
    total_monthly_cost := mc, days_on_market := none, property_type := none }

/-- The three-listing pool with monthly costs 1000, 1500, 2000. -/
def poolMC : List Property :=
  [bareProp 1 (some 1000), bareProp 2 (some 1500), bareProp 3 (some 2000)]

/-- A two-listing pool where the first member has the higher monthly
cost. -/
def poolC4 : List Property := [bareProp 1 (some 2000), bareProp 2 (some 1000)]

/-- Criteria with every weight defaulted (equal non-zero weights 25). -/
def critDefault : Criteria := {}

/-- Criteria with all four weights explicitly zero. -/
def critZero : Criteria :=
  { priorities := some
      { monthly_cost := some 0, location := some 0, value := some 0,
        space := some 0 } }

/-- A ten-listing pool whose days-on-market values are 70 percent fast. -/
def poolDom70 : List Property :=
  (List.range 10).map fun i =>
    { bareProp i none with days_on_market := some (if i < 7 then 5 else 50) }

/-- An empty comparison cache. -/
def compareCache0 : AIResponseCache (List ℕ × List String) CompareResult :=
  AIResponseCache.init _ _

/-- An empty summary cache. -/
def summaryCache0 : AIResponseCache (Filters × ℕ) SummaryResult :=
  AIResponseCache.init _ _

/-- An empty recommendation cache. -/
def recommendCache0 : AIResponseCache Criteria RecommendResult :=
  AIResponseCache.init _ _

/-- An empty market cache. -/
def marketCache0 : AIResponseCache (String × String × String) MarketResult :=
  AIResponseCache.init _ _

/-- A fresh limiter with the default limits. -/
def rlFresh : GeminiRateLimiter := {}

/-- A limiter whose daily window is exhausted at time 1000 (two entries
against a limit of two) while the minute window is free. -/
def rlQuota : GeminiRateLimiter :=
  { max_per_minute := 15, max_per_day := 2, minute_requests := [],
    day_requests := [100, 200] }

/-- A limiter at time 1000 with both windows at capacity: one minute entry
at 500 against a limit of one, one day entry at 900 against a limit of
one. -/
def rlBothFull : GeminiRateLimiter :=
  { max_per_minute := 1, max_per_day := 1, minute_requests := [500],
    day_requests := [900] }

/-- First comparison call of the letter-mapping scenario: ids `[7, 42]`
against the fresh service state, with the model raising. -/
def compareRun1 :
    Except PipeError
      (CompareResult × AIResponseCache (List ℕ × List String) CompareResult ×
        GeminiRateLimiter) :=
  compareProperties dbAB compareCache0 rlFresh [7, 42] none 0 (.raised "boom")

/-- The service state after the first comparison call. -/
def compareState1 :
    AIResponseCache (List ℕ × List String) CompareResult × GeminiRateLimiter :=
  match compareRun1 with
  | .ok x => (x.2.1, x.2.2)
  | .error _ => (compareCache0, rlFresh)

/-- Second comparison call: the same id set requested in the other order,
`[42, 7]`, ten tenths of a second later. -/
def compareRun2 :
    Except PipeError
      (CompareResult × AIResponseCache (List ℕ × List String) CompareResult ×
        GeminiRateLimiter) :=
  compareProperties dbAB compareState1.1 compareState1.2 [42, 7] none 10
    (.raised "boom2")

/-- A summary request made while the daily quota is exhausted. -/
def summaryQuotaRun :
    SummaryResult × AIResponseCache (Filters × ℕ) SummaryResult ×
      GeminiRateLimiter :=
  summarizeProperties dbAB summaryCache0 rlQuota none 50 1000
    (.ok (.noJson "unused"))

/-- The cache state `["b" at time 0, "a" at time 1]` with capacity 2:
at capacity, `"a"` present, `"b"` least recently used. -/
def cacheAtCap : AIResponseCache String ℕ :=
  ((AIResponseCache.init String ℕ 2 10).set "b" 1 none 0).set "a" 2 none 1

/-- An operation sequence exercising every public cache operation. -/
def opsDemo : List (CacheOp ℕ) :=
  [.set "ai:summary:k1" 1 none 0, .set "ai:summary:k2" 2 (some 5) 1,
   .set "ai:compare:k3" 3 none 2, .get "ai:summary:k1" 3,
   .invalidatePattern "ai:summary:*", .set "ai:market:k4" 4 none 9,
   .get "ai:summary:k2" 9, .invalidate "ai:compare:k3", .clear,
   .set "ai:summary:k5" 5 none 12]

/-! ## Helper lemmas about the cache -/

theorem cacheModify_length {κ α : Type} [DecidableEq κ]
    (l : List (κ × CacheEntry α)) (key : κ) (f : CacheEntry α → CacheEntry α) :
    (cacheModify l key f).length = l.length := by
  induction l with
  | nil => rfl
  | cons kv rest ih => simp only [cacheModify]; split <;> simp [ih]

theorem cacheErase_length_le {κ α : Type} [DecidableEq κ]
    (l : List (κ × CacheEntry α)) (key : κ) :
    (cacheErase l key).length ≤ l.length := by
  induction l with
  | nil => simp [cacheErase]
  | cons kv rest ih =>
      simp only [cacheErase]
      split
      · simp
      · simpa using Nat.succ_le_succ ih

theorem cacheErase_length_of_mem {κ α : Type} [DecidableEq κ]
    {l : List (κ × CacheEntry α)} {key : κ} (h : key ∈ l.map Prod.fst) :
    (cacheErase l key).length + 1 = l.length := by
  induction l with
  | nil => simp at h
  | cons kv rest ih =>
      by_cases hk : kv.1 = key
      · simp [cacheErase, hk]
      · have hmem : key ∈ rest.map Prod.fst := by
          rcases List.mem_cons.mp h with h1 | h1
          · exact absurd h1.symm hk
          · exact h1
        simp [cacheErase, hk, ih hmem]

theorem lruScan_mem {κ α : Type} (l : List (κ × CacheEntry α))
    (best : κ × ℤ) :
    lruScan best l = best.1 ∨ lruScan best l ∈ l.map Prod.fst := by
  induction l generalizing best with
  | nil => left; rfl
  | cons kv rest ih =>
      simp only [lruScan]
      split
      · rcases ih (kv.1, kv.2.last_accessed) with h | h
        · right; simp [h]
        · right; simp [h]
      · rcases ih best with h | h
        · left; exact h
        · right; simp [h]

theorem evictLru_length {κ α : Type} [DecidableEq κ]
    {l : List (κ × CacheEntry α)} (h : l ≠ []) :
    (evictLru l).length + 1 = l.length := by
  match l, h with
  | kv :: rest, _ =>
      have hmem :
          lruScan (kv.1, kv.2.last_accessed) rest ∈ (kv :: rest).map Prod.fst := by
        rcases lruScan_mem rest (kv.1, kv.2.last_accessed) with h1 | h1
        · simp [h1]
        · simp [h1]
      simpa [evictLru] using cacheErase_length_of_mem hmem

theorem cacheInsert_length_le {κ α : Type} [DecidableEq κ]
    (l : List (κ × CacheEntry α)) (key : κ) (e : CacheEntry α) :
    (cacheInsert l key e).length ≤ l.length + 1 := by
  induction l with
  | nil => simp [cacheInsert]
  | cons kv rest ih =>
      simp only [cacheInsert]
      split
      · simp
      · simpa using Nat.succ_le_succ ih

theorem cacheLookup_cacheInsert_self {κ α : Type} [DecidableEq κ]
    (l : List (κ × CacheEntry α)) (key : κ) (e : CacheEntry α) :
    cacheLookup (cacheInsert l key e) key = some e := by
  induction l with
  | nil => simp [cacheInsert, cacheLookup]
  | cons kv rest ih =>
      simp only [cacheInsert]
      split
      · simp [cacheLookup]
      · simp [cacheLookup, *]

theorem set_length_le {κ α : Type} [DecidableEq κ]
    (c : AIResponseCache κ α) (key : κ) (v : α) (ttl : Option ℤ) (now : ℤ)
    (hinv : c.cache.length ≤ c.max_size) (hpos : 1 ≤ c.max_size) :
    (c.set key v ttl now).cache.length ≤ c.max_size := by
  unfold AIResponseCache.set
  by_cases hc : c.max_size ≤ c.cache.length
  · have hne : c.cache ≠ [] := by
      intro hnil
      rw [hnil] at hc
      simp at hc
      omega
    have hev := evictLru_length (l := c.cache) hne
    simp only [hc, if_true]
    calc (cacheInsert (evictLru c.cache) key _).length
        ≤ (evictLru c.cache).length + 1 := cacheInsert_length_le _ _ _
      _ = c.cache.length := hev
      _ ≤ c.max_size := hinv
  · simp only [hc, if_false]
    calc (cacheInsert c.cache key _).length
        ≤ c.cache.length + 1 := cacheInsert_length_le _ _ _
      _ ≤ c.max_size := by omega

theorem get_length_le {κ α : Type} [DecidableEq κ]
    (c : AIResponseCache κ α) (key : κ) (now : ℤ) :
    (c.get key now).2.cache.length ≤ c.cache.length := by
  unfold AIResponseCache.get
  cases h : cacheLookup c.cache key with
  | none => simp
  | some e =>
      dsimp only
      split
      · simpa using cacheErase_length_le c.cache key
      · simp [cacheModify_length]

theorem cacheOp_max_size {α : Type} (c : AIResponseCache String α)
    (op : CacheOp α) : (op.apply c).max_size = c.max_size := by
  cases op with
  | get key now =>
      simp only [CacheOp.apply, AIResponseCache.get]
      cases cacheLookup c.cache key with
      | none => rfl
      | some e => dsimp only; split <;> rfl
  | set key data ttl now => rfl
  | invalidate key =>
      simp only [CacheOp.apply, AIResponseCache.invalidate]
      cases cacheLookup c.cache key <;> rfl
  | invalidatePattern pattern => rfl
  | clear => rfl

theorem cacheOp_length_le {α : Type} (c : AIResponseCache String α)
    (op : CacheOp α) (hinv : c.cache.length ≤ c.max_size)
    (hpos : 1 ≤ c.max_size) :
    (op.apply c).cache.length ≤ c.max_size := by
  cases op with
  | get key now =>
      exact le_trans (get_length_le c key now) hinv
  | set key data ttl now => exact set_length_le c key data ttl now hinv hpos
  | invalidate key =>
      simp only [CacheOp.apply, AIResponseCache.invalidate]
      cases h : cacheLookup c.cache key with
      | none => simpa using hinv
      | some e =>
          dsimp only
          exact le_trans (cacheErase_length_le c.cache key) hinv
  | invalidatePattern pattern =>
      simp only [CacheOp.apply, AIResponseCache.invalidatePattern]
      exact le_trans (List.length_filter_le _ _) hinv
  | clear => simp [CacheOp.apply, AIResponseCache.clear]

theorem applyOps_length_le {α : Type} (ops : List (CacheOp α))
    (c : AIResponseCache String α) (hinv : c.cache.length ≤ c.max_size)
    (hpos : 1 ≤ c.max_size) :
    (applyOps c ops).cache.length ≤ c.max_size := by
  induction ops generalizing c with
  | nil => simpa [applyOps] using hinv
  | cons op rest ih =>
      have hmax := cacheOp_max_size c op
      have hstep := cacheOp_length_le c op hinv hpos
      have := ih (op.apply c) (by rw [hmax]; exact hstep) (by rw [hmax]; exact hpos)
      simpa [applyOps, hmax] using this

/-! ## Helper lemmas about the rate limiter -/

theorem mem_cleanupWindow_lt {l : List ℤ} {w now t : ℤ}
    (h : t ∈ cleanupWindow l w now) : now - t < w := by
  have := List.mem_filter.mp h
  simpa using this.2

theorem headD_mem {α : Type} {l : List α} (h : l ≠ []) (d : α) :
    l.headD d ∈ l := by
  cases l with
  | nil => exact absurd rfl h
  | cons a rest => simp [List.headD]

/-- When the purged minute window is below capacity and the purged day
window is at capacity, `acquire` fails at once: no sleeping, the purged
lists kept, and the estimated minutes computed from the oldest surviving
day entry. -/
theorem acquire_day_exhausted (rl : GeminiRateLimiter) (now : ℤ)
    (hmin : (cleanupWindow rl.minute_requests minuteWindow now).length <
      rl.max_per_minute)
    (hday : rl.max_per_day ≤ (cleanupWindow rl.day_requests dayWindow now).length)
    (hpos : 1 ≤ rl.max_per_day) :
    rl.acquire now =
      (.quotaExceeded
        ((dayWindow -
          (now - (cleanupWindow rl.day_requests dayWindow now).headD 0)) / 600),
       { rl with
          minute_requests := cleanupWindow rl.minute_requests minuteWindow now,
          day_requests := cleanupWindow rl.day_requests dayWindow now }, 0) := by
  have hne : cleanupWindow rl.day_requests dayWindow now ≠ [] := by
    intro h0
    rw [h0] at hday
    simp at hday
    omega
  have hhead : now - (cleanupWindow rl.day_requests dayWindow now).headD 0 <
      dayWindow :=
    mem_cleanupWindow_lt (headD_mem hne 0)
  have hwait : 0 < dayWindow -
      (now - (cleanupWindow rl.day_requests dayWindow now).headD 0) := by omega
  unfold GeminiRateLimiter.acquire
  simp only [acquireMinuteLoop, Nat.not_le.mpr hmin, if_false, hday, if_true,
    hwait]

/-! ## Helper lemmas about the comparison fetch and reorder -/

theorem filterMap_find_ids (props : List Property) (ids : List ℕ)
    (h : ∀ pid ∈ ids, ∃ p ∈ props, p.id = pid) :
    (ids.filterMap fun pid => props.find? fun p => p.id == pid).map
      Property.id = ids := by
  induction ids with
  | nil => rfl
  | cons pid rest ih =>
      obtain ⟨p, hp, hpid⟩ := h pid (List.mem_cons_self pid rest)
      have hsome : (props.find? fun q => q.id == pid).isSome := by
        rw [List.find?_isSome]
        exact ⟨p, hp, by simpa using hpid⟩
      obtain ⟨q, hq⟩ := Option.isSome_iff_exists.mp hsome
      have hqid : q.id = pid := by
        have := List.find?_some hq
        simpa using this
      have hrest : ∀ x ∈ rest, ∃ p ∈ props, p.id = x := fun x hx =>
        h x (List.mem_cons_of_mem _ hx)
      simp [List.filterMap_cons, hq, hqid, ih hrest]

theorem mkPropertyDetails_letters (props : List Property) :
    (mkPropertyDetails props).map (fun d => (d.property_letter, d.property_id)) =
      props.enum.map fun t => (Char.ofNat (65 + t.1), t.2.id) := by
  simp [mkPropertyDetails, List.map_map]

theorem enum_map_of_map_eq {l : List Property} {ids : List ℕ}
    (h : l.map Property.id = ids) :
    (l.enum.map fun t => (Char.ofNat (65 + t.1), t.2.id)) =
      ids.enum.map fun t => (Char.ofNat (65 + t.1), t.2) := by
  subst h
  rw [List.enum_map]
  simp [List.map_map]

theorem contains_filter_subset {db : List Property} {ids : List ℕ} :
    ((db.filter fun p => ids.contains p.id).map Property.id) ⊆ ids := by
  intro x hx
  obtain ⟨p, hp, hpx⟩ := List.mem_map.mp hx
  have := (List.mem_filter.mp hp).2
  rw [← hpx]
  simpa using this

theorem subset_contains_filter {db : List Property} {ids : List ℕ}
    (hres : ∀ pid ∈ ids, ∃ p ∈ db, p.id = pid) :
    ids ⊆ (db.filter fun p => ids.contains p.id).map Property.id := by
  intro pid hpid
  obtain ⟨p, hp, hpi⟩ := hres pid hpid
  refine List.mem_map.mpr ⟨p, ?_, hpi⟩
  refine List.mem_filter.mpr ⟨hp, ?_⟩
  simp [hpi, hpid]

theorem filter_map_id_nodup {db : List Property} {ids : List ℕ}
    (hdb : (db.map Property.id).Nodup) :
    ((db.filter fun p => ids.contains p.id).map Property.id).Nodup :=
  ((List.filter_sublist db).map Property.id).nodup hdb

theorem contains_filter_length_eq {db : List Property} {ids : List ℕ}
    (hdb : (db.map Property.id).Nodup) (hids : ids.Nodup)
    (hres : ∀ pid ∈ ids, ∃ p ∈ db, p.id = pid) :
    (db.filter fun p => ids.contains p.id).length = ids.length := by
  have h1 : ((db.filter fun p => ids.contains p.id).map Property.id).length ≤
      ids.length :=
    (List.subperm_of_subset (filter_map_id_nodup hdb)
      contains_filter_subset).length_le
  have h2 : ids.length ≤
      ((db.filter fun p => ids.contains p.id).map Property.id).length :=
    (List.subperm_of_subset hids (subset_contains_filter hres)).length_le
  have := le_antisymm h1 h2
  simpa using this

theorem dedup_length_lt_of_not_nodup {ids : List ℕ} (h : ¬ ids.Nodup) :
    ids.dedup.length < ids.length := by
  rcases Nat.lt_or_ge ids.dedup.length ids.length with hlt | hge
  · exact hlt
  · exfalso
    have hsub := List.dedup_sublist ids
    have hlen : ids.dedup.length = ids.length :=
      le_antisymm hsub.length_le hge
    have := hsub.eq_of_length hlen
    exact h (this ▸ List.nodup_dedup ids)

theorem contains_filter_length_lt {db : List Property} {ids : List ℕ}
    (hdb : (db.map Property.id).Nodup) (hdup : ¬ ids.Nodup) :
    (db.filter fun p => ids.contains p.id).length < ids.length := by
  have hsubd : ((db.filter fun p => ids.contains p.id).map Property.id) ⊆
      ids.dedup := fun x hx => (List.mem_dedup).mpr (contains_filter_subset hx)
  have h1 : ((db.filter fun p => ids.contains p.id).map Property.id).length ≤
      ids.dedup.length :=
    (List.subperm_of_subset (filter_map_id_nodup hdb) hsubd).length_le
  have h2 := dedup_length_lt_of_not_nodup hdup
  have h3 : (db.filter fun p => ids.contains p.id).length =
      ((db.filter fun p => ids.contains p.id).map Property.id).length := by simp
  omega

/-! ## Scoring helper lemmas -/

theorem pairwise_of_total {α : Type} {r : α → α → Prop} :
    ∀ {l : List α}, (∀ x ∈ l, ∀ y ∈ l, r x y) → l.Pairwise r
  | [], _ => .nil
  | a :: t, h =>
      .cons (fun y hy => h a (List.mem_cons_self a t) y (List.mem_cons_of_mem a hy))
        (pairwise_of_total fun x hx y hy =>
          h x (List.mem_cons_of_mem a hx) y (List.mem_cons_of_mem a hy))

theorem scoreOne_zero_weights (pool : List Property) (cityPref : String)
    (tw : ℚ) (p : Property) :
    scoreOne pool cityPref (0, 0, 0, 0) tw p =
      ⟨p, 0, ⟨monthlyCostScore pool p, valueScore pool p, spaceScore pool p,
        locationScore cityPref p⟩⟩ := by
  simp [scoreOne, round1]

/-! ## Claim theorems -/

/-- C3 counterexample: with `max_size = 2` and the map at capacity holding
`"b"` (older access) and `"a"`, the call `set "a" ...` is an overwrite of a
present key, yet the code evicts the LRU entry `"b"` — the claim says an
overwrite never evicts another entry. -/
theorem c3_counterexample :
    cacheAtCap.cache.map Prod.fst = ["b", "a"] ∧
    cacheAtCap.max_size ≤ cacheAtCap.cache.length ∧
    (cacheAtCap.set "a" 3 none 2).cache.map Prod.fst = ["a"] := by
  decide

/-- C3 (amended): `set(key, value, ttl)` evicts the entry with the oldest
`lastAccessedAt` whenever the map is at (or beyond) `maxSize`, regardless
of whether `key` is already present — so an overwrite at capacity can evict
a different key; below capacity it inserts or overwrites without evicting;
the stored entry satisfies `expiresAt = now + ttl` for a nonzero ttl. -/
theorem c3_set_amended {κ α : Type} [DecidableEq κ] (c : AIResponseCache κ α)
    (key : κ) (v : α) (t : ℤ) (now : ℤ) (ht : t ≠ 0) :
    (c.max_size ≤ c.cache.length →
      c.set key v (some t) now =
        { c with cache := cacheInsert (evictLru c.cache) key ⟨v, now, now, now + t⟩ }) ∧
    (c.cache.length < c.max_size →
      c.set key v (some t) now =
        { c with cache := cacheInsert c.cache key ⟨v, now, now, now + t⟩ }) ∧
    cacheLookup (c.set key v (some t) now).cache key = some ⟨v, now, now, now + t⟩ := by
  refine ⟨fun hc => ?_, fun hc => ?_, ?_⟩
  · simp [AIResponseCache.set, ht, hc]
  · simp [AIResponseCache.set, ht, Nat.not_le.mpr hc]
  · simp only [AIResponseCache.set, ht, if_false]
    exact cacheLookup_cacheInsert_self _ key _

/-- C3 amended witness: the at-capacity overwrite on the concrete
two-entry cache. -/
theorem c3_amended_witness :
    ((3 : ℤ) ≠ 0 ∧ cacheAtCap.max_size ≤ cacheAtCap.cache.length) ∧
    cacheAtCap.set "a" 9 (some 3) 2 =
      { cacheAtCap with
          cache := cacheInsert (evictLru cacheAtCap.cache) "a" ⟨9, 2, 2, 2 + 3⟩ } :=
  ⟨⟨by decide, by decide⟩,
   (c3_set_amended cacheAtCap "a" 9 3 2 (by decide)).1 (by decide)⟩

/-- C6: `get(key)` returns the stored value exactly when the key is
present and `now ≤ expiresAt`, touching `lastAccessedAt` in place; an
expired entry is removed and the call misses; an absent key misses and
changes nothing. -/
theorem c6_cache_get_behaviour {κ α : Type} [DecidableEq κ]
    (c : AIResponseCache κ α) (key : κ) (now : ℤ) :
    (cacheLookup c.cache key = none → c.get key now = (none, c)) ∧
    (∀ e, cacheLookup c.cache key = some e → now ≤ e.expires_at →
      c.get key now = (some e.data,
        { c with cache :=
            cacheModify c.cache key (fun x => { x with last_accessed := now }) })) ∧
    (∀ e, cacheLookup c.cache key = some e → e.expires_at < now →
      c.get key now = (none, { c with cache := cacheErase c.cache key })) := by
  refine ⟨fun h => ?_, fun e he hle => ?_, fun e he hlt => ?_⟩
  · unfold AIResponseCache.get
    rw [h]
  · unfold AIResponseCache.get
    rw [he]
    simp [not_lt.mpr hle]
  · unfold AIResponseCache.get
    rw [he]
    simp [hlt]

/-- C6 witness: a hit on the concrete cache, at a time before expiry. -/
theorem c6_witness :
    (cacheLookup cacheAtCap.cache "a" = some ⟨2, 1, 1, 11⟩ ∧
      (5 : ℤ) ≤ (⟨2, 1, 1, 11⟩ : CacheEntry ℕ).expires_at) ∧
    cacheAtCap.get "a" 5 = (some 2,
      { cacheAtCap with
          cache :=
            cacheModify cacheAtCap.cache "a" (fun x => { x with last_accessed := 5 }) }) :=
  ⟨⟨by decide, by decide⟩,
   (c6_cache_get_behaviour cacheAtCap "a" 5).2.1 ⟨2, 1, 1, 11⟩ (by decide)
     (by decide)⟩

/-- C9: for a cache constructed with `max_size ≥ 1`, the entry count never
exceeds `max_size` after any sequence of get, set, invalidate,
invalidate-pattern and clear operations. -/
theorem c9_cache_size_invariant {α : Type} (max_size : ℕ) (default_ttl : ℤ)
    (h : 1 ≤ max_size) (ops : List (CacheOp α)) :
    (applyOps (AIResponseCache.init String α max_size default_ttl) ops).cache.length ≤
      max_size :=
  applyOps_length_le ops _ (by simp [AIResponseCache.init]) h

/-- C9 witness: a ten-operation sequence against a capacity-two cache. -/
theorem c9_witness :
    1 ≤ 2 ∧
    (applyOps (AIResponseCache.init String ℕ 2 36000) opsDemo).cache.length ≤ 2 :=
  ⟨by decide, c9_cache_size_invariant 2 36000 (by decide) opsDemo⟩

/-- C5 counterexample: at time 1000 the limiter `rlBothFull` has both the
minute and the day window at capacity after purging; `acquire` sleeps 10.1
seconds (101 tenths) on the minute window before raising the daily-quota
error, refuting the claim that the failure is immediate regardless of the
minute window. -/
theorem c5_counterexample :
    rlBothFull.acquire 1000 =
      (.quotaExceeded 1439,
       { max_per_minute := 1, max_per_day := 1, minute_requests := [],
         day_requests := [900] }, 101) ∧
    (101 : ℤ) ≠ 0 := by
  decide

/-- C5 (amended): whenever the purged day window is at capacity and the
purged minute window is below capacity, `acquire` fails immediately — no
sleeping — with `QuotaExceeded` carrying the truncated minutes until the
oldest daily entry expires; when the minute window is also at capacity,
the failure comes only after the minute-window wait completes. -/
theorem c5_day_quota_amended (rl : GeminiRateLimiter) (now : ℤ)
    (hmin : (cleanupWindow rl.minute_requests minuteWindow now).length <
      rl.max_per_minute)
    (hday : rl.max_per_day ≤ (cleanupWindow rl.day_requests dayWindow now).length)
    (hpos : 1 ≤ rl.max_per_day) :
    rl.acquire now =
      (.quotaExceeded
        ((dayWindow -
          (now - (cleanupWindow rl.day_requests dayWindow now).headD 0)) / 600),
       { rl with
          minute_requests := cleanupWindow rl.minute_requests minuteWindow now,
          day_requests := cleanupWindow rl.day_requests dayWindow now }, 0) :=
  acquire_day_exhausted rl now hmin hday hpos

/-- C5 amended witness: the day-exhausted limiter with a free minute
window fails with no sleep. -/
theorem c5_amended_witness :
    ((cleanupWindow rlQuota.minute_requests minuteWindow 1000).length <
        rlQuota.max_per_minute ∧
      rlQuota.max_per_day ≤
        (cleanupWindow rlQuota.day_requests dayWindow 1000).length ∧
      1 ≤ rlQuota.max_per_day) ∧
    rlQuota.acquire 1000 =
      (.quotaExceeded
        ((dayWindow -
          (1000 - (cleanupWindow rlQuota.day_requests dayWindow 1000).headD 0)) / 600),
       { rlQuota with
          minute_requests := cleanupWindow rlQuota.minute_requests minuteWindow 1000,
          day_requests := cleanupWindow rlQuota.day_requests dayWindow 1000 }, 0) :=
  ⟨⟨by decide, by decide, by decide⟩,
   c5_day_quota_amended rlQuota 1000 (by decide) (by decide) (by decide)⟩

/-- C8: with a nonempty days-on-market sample the buckets are fast ≤ 14,
moderate 15..45 and slow ≥ 46; the temperature is hot above a 60 percent
fast share, warm above 40, cool above 20, else cold; in particular a pool
with a 70 percent fast share is hot and one with a 10 percent fast share is
cold. -/
theorem c8_market_temperature (props : List Property)
    (h : domValues props ≠ []) :
    (analyzeDomDistribution props).fast_moving =
      ((domValues props).filter fun d => decide (d ≤ 14)).length ∧
    (analyzeDomDistribution props).moderate =
      ((domValues props).filter fun d => decide (15 ≤ d ∧ d ≤ 45)).length ∧
    (analyzeDomDistribution props).slow_moving =
      ((domValues props).filter fun d => decide (46 ≤ d)).length ∧
    (analyzeDomDistribution props).total_analyzed = (domValues props).length ∧
    (analyzeDomDistribution props).fast_moving_pct =
      ((analyzeDomDistribution props).fast_moving : ℚ) /
        ((analyzeDomDistribution props).total_analyzed : ℚ) * 100 ∧
    (analyzeDomDistribution props).market_temperature =
      (if 60 < (analyzeDomDistribution props).fast_moving_pct then "hot"
       else if 40 < (analyzeDomDistribution props).fast_moving_pct then "warm"
       else if 20 < (analyzeDomDistribution props).fast_moving_pct then "cool"
       else "cold") ∧
    (10 * (analyzeDomDistribution props).fast_moving =
        7 * (analyzeDomDistribution props).total_analyzed →
      (analyzeDomDistribution props).market_temperature = "hot") ∧
    (10 * (analyzeDomDistribution props).fast_moving =
        (analyzeDomDistribution props).total_analyzed →
      (analyzeDomDistribution props).market_temperature = "cold") := by
  have hlen : 0 < (domValues props).length := List.length_pos.mpr h
  simp only [analyzeDomDistribution, if_neg h, hlen, if_true]
  refine ⟨trivial, ?_, ?_, trivial, trivial, trivial, ?_, ?_⟩
  · apply congrArg List.length
    apply List.filter_congr
    intro d _
    simp only [decide_eq_decide]
    omega
  · apply congrArg List.length
    apply List.filter_congr
    intro d _
    simp only [decide_eq_decide]
    omega
  · intro h7
    have htot : ((domValues props).length : ℚ) ≠ 0 := by
      exact_mod_cast Nat.pos_iff_ne_zero.mp hlen
    have hc : (((domValues props).filter fun d => decide (d ≤ 14)).length : ℚ) /
        ((domValues props).length : ℚ) * 100 = 70 := by
      have h7q : (10 : ℚ) *
          (((domValues props).filter fun d => decide (d ≤ 14)).length : ℚ) =
          7 * ((domValues props).length : ℚ) := by exact_mod_cast h7
      field_simp
      linarith
    rw [hc]
    norm_num
  · intro h10
    have htot : ((domValues props).length : ℚ) ≠ 0 := by
      exact_mod_cast Nat.pos_iff_ne_zero.mp hlen
    have hc : (((domValues props).filter fun d => decide (d ≤ 14)).length : ℚ) /
        ((domValues props).length : ℚ) * 100 = 10 := by
      have h10q : (10 : ℚ) *
          (((domValues props).filter fun d => decide (d ≤ 14)).length : ℚ) =
          ((domValues props).length : ℚ) := by exact_mod_cast h10
      field_simp
      linarith
    rw [hc]
    norm_num

/-- C8 witness: the ten-listing pool with seven fast sales classifies
hot. -/
theorem c8_witness :
    domValues poolDom70 ≠ [] ∧
    (10 * (analyzeDomDistribution poolDom70).fast_moving =
        7 * (analyzeDomDistribution poolDom70).total_analyzed →
      (analyzeDomDistribution poolDom70).market_temperature = "hot") :=
  ⟨by decide, (c8_market_temperature poolDom70 (by decide)).2.2.2.2.2.2.1⟩

/-- C4 counterexample: on the two-listing pool, all-zero weights yield
total scores `[0, 0]` in input order `[1, 2]`, while the equal non-zero
default weights yield scores 62.5 and 37.5 and the order `[2, 1]` —
zero-sum weights are not treated as uniform weights. -/
theorem c4_counterexample :
    (scoreProperties poolC4 critZero).map (fun s => (s.property.id, s.score)) =
      [(1, 0), (2, 0)] ∧
    (scoreProperties poolC4 critDefault).map (fun s => (s.property.id, s.score)) =
      [(2, (125 : ℚ)/2), (1, (75 : ℚ)/2)] := by
  constructor
  · norm_num [scoreProperties, scoreList, scoreOne, critZero, poolC4, bareProp,
      Criteria.weights, round1, monthlyCostScore, valueScore, spaceScore,
      locationScore, qTruthy, strTruthy, presentMonthly, presentPsf, presentSqft,
      listMax, listMin, List.insertionSort, List.orderedInsert, scoreGe]
  · have hmax : listMax (presentMonthly poolC4) = 2000 := by decide
    have hmin : listMin (presentMonthly poolC4) = 1000 := by decide
    have hm1 : monthlyCostScore poolC4 (bareProp 1 (some 2000)) = 0 := by
      norm_num [monthlyCostScore, qTruthy, bareProp, hmax, hmin]
    have hm2 : monthlyCostScore poolC4 (bareProp 2 (some 1000)) = 100 := by
      norm_num [monthlyCostScore, qTruthy, bareProp, hmax, hmin]
    have hv1 : valueScore poolC4 (bareProp 1 (some 2000)) = 50 := by
      norm_num [valueScore, qTruthy, bareProp]
    have hv2 : valueScore poolC4 (bareProp 2 (some 1000)) = 50 := by
      norm_num [valueScore, qTruthy, bareProp]
    have hsp1 : spaceScore poolC4 (bareProp 1 (some 2000)) = 50 := by
      norm_num [spaceScore, qTruthy, bareProp]
    have hsp2 : spaceScore poolC4 (bareProp 2 (some 1000)) = 50 := by
      norm_num [spaceScore, qTruthy, bareProp]
    have hl1 : ∀ cp, locationScore cp (bareProp 1 (some 2000)) = 50 := by
      intro cp
      norm_num [locationScore, strTruthy, bareProp]
    have hl2 : ∀ cp, locationScore cp (bareProp 2 (some 1000)) = 50 := by
      intro cp
      norm_num [locationScore, strTruthy, bareProp]
    have hs1 : ∀ cp, scoreOne poolC4 cp (25, 25, 25, 25) 100 (bareProp 1 (some 2000)) =
        ⟨bareProp 1 (some 2000), 75/2, ⟨0, 50, 50, 50⟩⟩ := by
      intro cp
      simp only [scoreOne, hm1, hv1, hsp1, hl1]
      norm_num [round1, round_ofNat]
    have hs2 : ∀ cp, scoreOne poolC4 cp (25, 25, 25, 25) 100 (bareProp 2 (some 1000)) =
        ⟨bareProp 2 (some 1000), 125/2, ⟨100, 50, 50, 50⟩⟩ := by
      intro cp
      simp only [scoreOne, hm2, hv2, hsp2, hl2]
      norm_num [round1, round_ofNat]
    have hlist : scoreList poolC4 critDefault =
        [⟨bareProp 1 (some 2000), 75/2, ⟨0, 50, 50, 50⟩⟩,
         ⟨bareProp 2 (some 1000), 125/2, ⟨100, 50, 50, 50⟩⟩] := by
      simp only [scoreList, Criteria.weights, critDefault]
      norm_num
      rw [show poolC4 = [bareProp 1 (some 2000), bareProp 2 (some 1000)] from rfl]
        at hs1 hs2 ⊢
      rw [List.map_cons, List.map_cons, List.map_nil, hs1, hs2]
    rw [scoreProperties, hlist]
    have hord : ¬ scoreGe
        (⟨bareProp 1 (some 2000), 75/2, ⟨0, 50, 50, 50⟩⟩ : ScoredProperty)
        ⟨bareProp 2 (some 1000), 125/2, ⟨100, 50, 50, 50⟩⟩ := by
      simp only [scoreGe]
      norm_num
    simp only [List.insertionSort, List.orderedInsert, if_neg hord]
    norm_num [bareProp]

/-- C4 (amended): when the four caller-supplied weights are non-negative
and sum to zero, the engine substitutes 100 for the total (avoiding the
division by zero) but keeps the zero weights, so every candidate receives
total score 0 and the output keeps the input pool order — it is not the
ranking equal non-zero weights would produce. -/
theorem c4_zero_weights_amended (pool : List Property) (criteria : Criteria)
    (h0 : criteria.weights.1 + criteria.weights.2.1 + criteria.weights.2.2.1 +
      criteria.weights.2.2.2 = 0)
    (hnn1 : 0 ≤ criteria.weights.1) (hnn2 : 0 ≤ criteria.weights.2.1)
    (hnn3 : 0 ≤ criteria.weights.2.2.1) (hnn4 : 0 ≤ criteria.weights.2.2.2) :
    (scoreProperties pool criteria).map ScoredProperty.score =
      pool.map (fun _ => 0) ∧
    (scoreProperties pool criteria).map ScoredProperty.property = pool := by
  have hw1 : criteria.weights.1 = 0 := by linarith
  have hw2 : criteria.weights.2.1 = 0 := by linarith
  have hw3 : criteria.weights.2.2.1 = 0 := by linarith
  have hw4 : criteria.weights.2.2.2 = 0 := by linarith
  have hw : criteria.weights = (0, 0, 0, 0) := by
    rw [show criteria.weights =
      (criteria.weights.1, criteria.weights.2.1, criteria.weights.2.2.1,
        criteria.weights.2.2.2) from rfl, hw1, hw2, hw3, hw4]
  have hlist : scoreList pool criteria =
      pool.map fun p =>
        ⟨p, 0, ⟨monthlyCostScore pool p, valueScore pool p, spaceScore pool p,
          locationScore ((criteria.city_preference.getD "").toLower) p⟩⟩ := by
    simp only [scoreList, hw]
    rw [if_pos (show ((0 : ℚ) + 0 + 0 + 0) = 0 by norm_num)]
    exact List.map_congr_left fun a _ => scoreOne_zero_weights pool _ 100 a
  have hall : ∀ x ∈ scoreList pool criteria, ∀ y ∈ scoreList pool criteria,
      scoreGe x y := by
    rw [hlist]
    intro x hx y hy
    obtain ⟨p, _, hp⟩ := List.mem_map.mp hx
    obtain ⟨q, _, hq⟩ := List.mem_map.mp hy
    simp [scoreGe, ← hp, ← hq]
  have hsorted : (scoreList pool criteria).Sorted scoreGe :=
    pairwise_of_total hall
  constructor
  · rw [scoreProperties, hsorted.insertionSort_eq, hlist, List.map_map]
    rfl
  · rw [scoreProperties, hsorted.insertionSort_eq, hlist, List.map_map]
    rw [show (ScoredProperty.property ∘ fun p =>
      (⟨p, 0, ⟨monthlyCostScore pool p, valueScore pool p, spaceScore pool p,
        locationScore ((criteria.city_preference.getD "").toLower) p⟩⟩ :
          ScoredProperty)) = id from rfl, List.map_id]

/-- C4 amended witness: the all-zero criteria on the two-listing pool. -/
theorem c4_amended_witness :
    (critZero.weights.1 + critZero.weights.2.1 + critZero.weights.2.2.1 +
        critZero.weights.2.2.2 = 0 ∧
      0 ≤ critZero.weights.1 ∧ 0 ≤ critZero.weights.2.1 ∧
      0 ≤ critZero.weights.2.2.1 ∧ 0 ≤ critZero.weights.2.2.2) ∧
    ((scoreProperties poolC4 critZero).map ScoredProperty.score =
        poolC4.map (fun _ => 0) ∧
      (scoreProperties poolC4 critZero).map ScoredProperty.property = poolC4) :=
  ⟨⟨by simp [critZero, Criteria.weights], by simp [critZero, Criteria.weights],
    by simp [critZero, Criteria.weights], by simp [critZero, Criteria.weights],
    by simp [critZero, Criteria.weights]⟩,
   c4_zero_weights_amended poolC4 critZero
     (by simp [critZero, Criteria.weights])
     (by simp [critZero, Criteria.weights])
     (by simp [critZero, Criteria.weights])
     (by simp [critZero, Criteria.weights])
     (by simp [critZero, Criteria.weights])⟩

/-- C7: dimension scores are min-max normalized — lower is better for
monthly cost and price-per-sqft (`100 * (1 - (x - min)/(max - min))`),
higher is better for sqft (`100 * (x - min)/(max - min)`); a variance-free
pool scores 100 on that dimension and a missing (or zero, which Python
treats as missing) value scores 50; on the pool with monthly costs
`[1000, 1500, 2000]` the monthly-cost dimension scores are
`[100, 50, 0]`. -/
theorem c7_dimension_normalization :
    (∀ (pool : List Property) (p : Property) (x : ℚ),
      p.total_monthly_cost = some x → x ≠ 0 →
      (listMin (presentMonthly pool) < listMax (presentMonthly pool) →
        monthlyCostScore pool p =
          100 * (1 - (x - listMin (presentMonthly pool)) /
            (listMax (presentMonthly pool) - listMin (presentMonthly pool)))) ∧
      (listMin (presentMonthly pool) = listMax (presentMonthly pool) →
        monthlyCostScore pool p = 100)) ∧
    (∀ (pool : List Property) (p : Property),
      p.total_monthly_cost = none ∨ p.total_monthly_cost = some 0 →
      monthlyCostScore pool p = 50) ∧
    (∀ (pool : List Property) (p : Property) (x : ℚ), p ∈ pool →
      p.price_per_sqft = some x → x ≠ 0 →
      (listMin (presentPsf pool) < listMax (presentPsf pool) →
        valueScore pool p =
          100 * (1 - (x - listMin (presentPsf pool)) /
            (listMax (presentPsf pool) - listMin (presentPsf pool)))) ∧
      (listMin (presentPsf pool) = listMax (presentPsf pool) →
        valueScore pool p = 100)) ∧
    (∀ (pool : List Property) (p : Property),
      p.price_per_sqft = none ∨ p.price_per_sqft = some 0 →
      valueScore pool p = 50) ∧
    (∀ (pool : List Property) (p : Property) (x : ℚ), p ∈ pool →
      p.sqft = some x → x ≠ 0 →
      (listMin (presentSqft pool) < listMax (presentSqft pool) →
        spaceScore pool p =
          100 * ((x - listMin (presentSqft pool)) /
            (listMax (presentSqft pool) - listMin (presentSqft pool)))) ∧
      (listMin (presentSqft pool) = listMax (presentSqft pool) →
        spaceScore pool p = 100)) ∧
    (∀ (pool : List Property) (p : Property),
      p.sqft = none ∨ p.sqft = some 0 → spaceScore pool p = 50) ∧
    ((scoreList poolMC critDefault).map (fun s => s.scores.monthly_cost) =
      [100, 50, 0]) := by
  refine ⟨?_, ?_, ?_, ?_, ?_, ?_, ?_⟩
  · intro pool p x hx hx0
    constructor
    · intro hlt
      simp [monthlyCostScore, qTruthy, hx, hx0, hlt]
    · intro heq
      simp [monthlyCostScore, qTruthy, hx, hx0, heq, lt_irrefl]
  · intro pool p h
    rcases h with h | h <;> simp [monthlyCostScore, qTruthy, h]
  · intro pool p x hp hx hx0
    have hmem : x ∈ presentPsf pool := by
      refine List.mem_filterMap.mpr ⟨p, hp, ?_⟩
      simp [qTruthy, hx, hx0]
    have hne : presentPsf pool ≠ [] := List.ne_nil_of_mem hmem
    constructor
    · intro hlt
      simp [valueScore, qTruthy, hx, hx0, hne, hlt]
    · intro heq
      simp [valueScore, qTruthy, hx, hx0, hne, heq, lt_irrefl]
  · intro pool p h
    rcases h with h | h <;> simp [valueScore, qTruthy, h]
  · intro pool p x hp hx hx0
    have hmem : x ∈ presentSqft pool := by
      refine List.mem_filterMap.mpr ⟨p, hp, ?_⟩
      simp [qTruthy, hx, hx0]
    have hne : presentSqft pool ≠ [] := List.ne_nil_of_mem hmem
    constructor
    · intro hlt
      simp [spaceScore, qTruthy, hx, hx0, hne, hlt]
    · intro heq
      simp [spaceScore, qTruthy, hx, hx0, hne, heq, lt_irrefl]
  · intro pool p h
    rcases h with h | h <;> simp [spaceScore, qTruthy, h]
  · have hmax : listMax (presentMonthly poolMC) = 2000 := by decide
    have hmin : listMin (presentMonthly poolMC) = 1000 := by decide
    have e1 : monthlyCostScore poolMC (bareProp 1 (some 1000)) = 100 := by
      norm_num [monthlyCostScore, qTruthy, bareProp, hmax, hmin]
    have e2 : monthlyCostScore poolMC (bareProp 2 (some 1500)) = 50 := by
      norm_num [monthlyCostScore, qTruthy, bareProp, hmax, hmin]
    have e3 : monthlyCostScore poolMC (bareProp 3 (some 2000)) = 0 := by
      norm_num [monthlyCostScore, qTruthy, bareProp, hmax, hmin]
    have hred : (scoreList poolMC critDefault).map (fun s => s.scores.monthly_cost) =
        [monthlyCostScore poolMC (bareProp 1 (some 1000)),
         monthlyCostScore poolMC (bareProp 2 (some 1500)),
         monthlyCostScore poolMC (bareProp 3 (some 2000))] := rfl
    rw [hred, e1, e2, e3]

/-- C7 witness: the min-cost member of the `[1000, 1500, 2000]` pool,
whose monthly cost is present and nonzero. -/
theorem c7_witness :
    ((bareProp 1 (some 1000)).total_monthly_cost = some 1000 ∧
      (1000 : ℚ) ≠ 0) ∧
    ((listMin (presentMonthly poolMC) < listMax (presentMonthly poolMC) →
       monthlyCostScore poolMC (bareProp 1 (some 1000)) =
         100 * (1 - (1000 - listMin (presentMonthly poolMC)) /
           (listMax (presentMonthly poolMC) - listMin (presentMonthly poolMC)))) ∧
     (listMin (presentMonthly poolMC) = listMax (presentMonthly poolMC) →
       monthlyCostScore poolMC (bareProp 1 (some 1000)) = 100)) :=
  ⟨⟨by decide, by decide⟩,
   c7_dimension_normalization.1 poolMC (bareProp 1 (some 1000)) 1000
     (by decide) (by decide)⟩

theorem exceptIsOk_exists {ε α : Type} (e : Except ε α) :
    e.isOk = true ↔ ∃ a, e = .ok a := by
  cases e <;> simp [Except.isOk, Except.toBool]

theorem fallbackComparison_ok_properties (props : List Property) :
    ∀ r, fallbackComparison props = .ok r →
      r.properties = mkPropertyDetails props := by
  intro r h
  unfold fallbackComparison at h
  repeat' split at h
  all_goals first
    | (injection h with h2; rw [← h2])
    | simp_all

theorem parseComparisonResponse_ok_properties (reply : AIReply ComparisonJson)
    (props : List Property) :
    ∀ r, parseComparisonResponse reply props = .ok r →
      r.properties = mkPropertyDetails props := by
  intro r h
  cases reply with
  | badJson t =>
      exact fallbackComparison_ok_properties props r
        (by simpa [parseComparisonResponse] using h)
  | noJson t =>
      simp only [parseComparisonResponse] at h
      injection h with h2
      rw [← h2]
  | json t j =>
      simp only [parseComparisonResponse] at h
      injection h with h2
      rw [← h2]

/-- On a cache miss with resolvable guards, and provided the fallback
generator does not raise, every post-fetch branch of the comparison
pipeline — quota fallback, model-failure fallback, and all three parse
shapes — reports the detail list built from the request-ordered
properties. -/
theorem compareProperties_ok_properties (db : List Property)
    (cache : AIResponseCache (List ℕ × List String) CompareResult)
    (rl : GeminiRateLimiter) (ids : List ℕ) (aspects : Option (List String))
    (now : ℤ) (gen : GenOutcome ComparisonJson)
    (h2 : 2 ≤ ids.length) (h5 : ids.length ≤ 5)
    (hmiss : (cache.get (compareCacheKey ids aspects) now).1 = none)
    (hlen : (db.filter fun p => ids.contains p.id).length = ids.length)
    (hfb : (fallbackComparison (ids.filterMap fun pid =>
      (db.filter fun p => ids.contains p.id).find? fun p => p.id == pid)).isOk =
      true) :
    (compareProperties db cache rl ids aspects now gen).toOption.map
        (fun x => x.1.properties) =
      some (mkPropertyDetails (ids.filterMap fun pid =>
        (db.filter fun p => ids.contains p.id).find? fun p => p.id == pid)) := by
  obtain ⟨fb, hfbeq⟩ := (exceptIsOk_exists _).mp hfb
  have hfbp := fallbackComparison_ok_properties _ fb hfbeq
  simp only [compareProperties]
  rw [if_neg (by omega), if_neg (by omega)]
  simp only [hmiss]
  rw [if_neg (by omega)]
  cases hA : (rl.acquire now).1 with
  | quotaExceeded m =>
      simp only [hfbeq, Except.toOption, Option.map_some']
      rw [hfbp]
  | admitted =>
      cases gen with
      | raised msg =>
          simp only [hfbeq, Except.toOption, Option.map_some']
          rw [hfbp]
      | ok reply =>
          cases hP : parseComparisonResponse reply (ids.filterMap fun pid =>
              (db.filter fun p => ids.contains p.id).find? fun p => p.id == pid) with
          | ok r =>
              have hrp := parseComparisonResponse_ok_properties reply _ r hP
              simp only [hP, Except.toOption, Option.map_some']
              rw [hrp]
          | error msg =>
              simp only [hP, hfbeq, Except.toOption, Option.map_some']
              rw [hfbp]

/-- C2 counterexample: the first call requests ids `[7, 42]` and its
result is cached under the order-insensitive sorted key; the second call
requests `[42, 7]` but hits that cache entry and returns the first call's
mapping A to 7, B to 42 — not A to 42, B to 7 as the claim requires. -/
theorem c2_counterexample :
    (compareRun2.toOption.map fun x =>
       (x.1.properties.map fun d => (d.property_letter, d.property_id),
        x.1.from_cache)) =
      some ([('A', 7), ('B', 42)], true) := by
  decide

/-- C2 (amended): on a cache miss, both the AI-structured and the fallback
path assign letters A, B, C... to the resolvable requested ids in request
order, provided the fallback generator does not raise its winner-formatting
TypeError (when it does, the request fails and produces no mapping); and
the cache key sorts the ids, so a later call with the same id set in a
different order returns the cached mapping of the first request's order
instead. -/
theorem c2_letter_order_amended (db : List Property)
    (cache : AIResponseCache (List ℕ × List String) CompareResult)
    (rl : GeminiRateLimiter) (ids : List ℕ) (aspects : Option (List String))
    (now : ℤ) (gen : GenOutcome ComparisonJson)
    (h2 : 2 ≤ ids.length) (h5 : ids.length ≤ 5)
    (hmiss : (cache.get (compareCacheKey ids aspects) now).1 = none)
    (hdb : (db.map Property.id).Nodup) (hids : ids.Nodup)
    (hres : ∀ pid ∈ ids, ∃ p ∈ db, p.id = pid)
    (hfb : (fallbackComparison (ids.filterMap fun pid =>
      (db.filter fun p => ids.contains p.id).find? fun p => p.id == pid)).isOk =
      true) :
    (compareProperties db cache rl ids aspects now gen).toOption.map
        (fun x => x.1.properties.map fun d => (d.property_letter, d.property_id)) =
      some (ids.enum.map fun t => (Char.ofNat (65 + t.1), t.2)) := by
  have hlen : (db.filter fun p => ids.contains p.id).length = ids.length :=
    contains_filter_length_eq hdb hids hres
  have hok := compareProperties_ok_properties db cache rl ids aspects now gen
    h2 h5 hmiss hlen hfb
  have hres2 : ∀ pid ∈ ids, ∃ p ∈ (db.filter fun q => ids.contains q.id),
      p.id = pid := by
    intro pid hpid
    obtain ⟨p, hp, hpi⟩ := hres pid hpid
    exact ⟨p, List.mem_filter.mpr ⟨hp, by simp [hpi, hpid]⟩, hpi⟩
  have hmapid :
      (ids.filterMap fun pid =>
        (db.filter fun p => ids.contains p.id).find? fun p => p.id == pid).map
          Property.id = ids :=
    filterMap_find_ids _ ids hres2
  cases hcall : compareProperties db cache rl ids aspects now gen with
  | error e => rw [hcall] at hok; simp [Except.toOption] at hok
  | ok x =>
      rw [hcall] at hok
      have hx : x.1.properties = mkPropertyDetails (ids.filterMap fun pid =>
          (db.filter fun p => ids.contains p.id).find? fun p => p.id == pid) := by
        simpa [Except.toOption] using hok
      simp only [Except.toOption, Option.map_some']
      rw [hx, mkPropertyDetails_letters, enum_map_of_map_eq hmapid]

/-- C2 amended witness: a fresh-state request for `[42, 7]` resolves to
letters A to 42, B to 7. -/
theorem c2_amended_witness :
    (2 ≤ ([42, 7] : List ℕ).length ∧ ([42, 7] : List ℕ).length ≤ 5 ∧
      (compareCache0.get (compareCacheKey [42, 7] none) 0).1 = none ∧
      (dbAB.map Property.id).Nodup ∧ ([42, 7] : List ℕ).Nodup ∧
      (∀ pid ∈ ([42, 7] : List ℕ), ∃ p ∈ dbAB, p.id = pid) ∧
      (fallbackComparison (([42, 7] : List ℕ).filterMap fun pid =>
        (dbAB.filter fun p => ([42, 7] : List ℕ).contains p.id).find?
          fun p => p.id == pid)).isOk = true) ∧
    (compareProperties dbAB compareCache0 rlFresh [42, 7] none 0
        (.raised "down")).toOption.map
        (fun x => x.1.properties.map fun d => (d.property_letter, d.property_id)) =
      some (([42, 7] : List ℕ).enum.map fun t => (Char.ofNat (65 + t.1), t.2)) :=
  ⟨⟨by decide, by decide, by decide, by decide, by decide, by decide, by decide⟩,
   c2_letter_order_amended dbAB compareCache0 rlFresh [42, 7] none 0
     (.raised "down") (by decide) (by decide) (by decide) (by decide)
     (by decide) (by decide) (by decide)⟩

/-- C10: a 2-to-5 id list containing a duplicate raises the not-found
error even when every id resolves, because the distinct fetched records
are counted against the raw id-list length. -/
theorem c10_duplicate_ids_not_found (db : List Property)
    (cache : AIResponseCache (List ℕ × List String) CompareResult)
    (rl : GeminiRateLimiter) (ids : List ℕ) (aspects : Option (List String))
    (now : ℤ) (gen : GenOutcome ComparisonJson)
    (h2 : 2 ≤ ids.length) (h5 : ids.length ≤ 5) (hdup : ¬ ids.Nodup)
    (hmiss : (cache.get (compareCacheKey ids aspects) now).1 = none)
    (hdb : (db.map Property.id).Nodup)
    (_hres : ∀ pid ∈ ids, ∃ p ∈ db, p.id = pid) :
    compareProperties db cache rl ids aspects now gen =
      .error (.notFound "One or more properties not found") := by
  have hlt : (db.filter fun p => ids.contains p.id).length < ids.length :=
    contains_filter_length_lt hdb hdup
  simp only [compareProperties]
  rw [if_neg (by omega), if_neg (by omega)]
  simp only [hmiss]
  rw [if_pos (by omega)]

/-- C10 witness: the duplicate request `[7, 7]` against a database where
id 7 resolves. -/
theorem c10_witness :
    (2 ≤ ([7, 7] : List ℕ).length ∧ ([7, 7] : List ℕ).length ≤ 5 ∧
      ¬ ([7, 7] : List ℕ).Nodup ∧
      (compareCache0.get (compareCacheKey [7, 7] none) 0).1 = none ∧
      (dbAB.map Property.id).Nodup ∧
      (∀ pid ∈ ([7, 7] : List ℕ), ∃ p ∈ dbAB, p.id = pid)) ∧
    compareProperties dbAB compareCache0 rlFresh [7, 7] none 0 (.raised "x") =
      .error (.notFound "One or more properties not found") :=
  ⟨⟨by decide, by decide, by decide, by decide, by decide, by decide⟩,
   c10_duplicate_ids_not_found dbAB compareCache0 rlFresh [7, 7] none 0
     (.raised "x") (by decide) (by decide) (by decide) (by decide) (by decide)
     (by decide)⟩

/-- C1 counterexample: a summary request issued while the daily quota is
exhausted does not fail — `summarize_properties` returns normally with the
deterministic fallback (confidence low, two properties analyzed) and the
quota error merely recorded in the `error` field. -/
theorem c1_counterexample :
    (summaryQuotaRun.1.error, summaryQuotaRun.1.confidence,
     summaryQuotaRun.1.properties_analyzed, summaryQuotaRun.1.from_cache) =
      (some (.quotaExceeded 1438), "low", 2, false) := by
  decide

/-- C1 (amended): in all four pipelines the rate-limiter call sits inside
the catch-all handler, so a request during which `acquire` raises the
daily-quota error is not failed with that error: the pipeline produces the
kind-specific deterministic fallback result with the quota error recorded
in the `error` field.  The one exception is the comparison pipeline when
its fallback generator itself raises its winner-formatting TypeError: then
that TypeError — not the quota error — escapes and the request fails.
Stated for cache-miss requests whose candidate fetch succeeds, for any
quota raise (including one issued only after minute-window sleeping). -/
theorem c1_quota_to_fallback_amended :
    (∀ (db : List Property) (cache : AIResponseCache (Filters × ℕ) SummaryResult)
      (rl : GeminiRateLimiter) (filters : Option Filters) (maxp : ℕ) (now : ℤ)
      (gen : GenOutcome SummaryJson) (m : ℤ),
      (cache.get (summaryCacheKey filters maxp) now).1 = none →
      fetchProperties db filters maxp ≠ [] →
      (rl.acquire now).1 = .quotaExceeded m →
      (summarizeProperties db cache rl filters maxp now gen).1 =
        { fallbackSummary (fetchProperties db filters maxp)
            (calculateStatistics (fetchProperties db filters maxp)) with
          error := some (.quotaExceeded m) }) ∧
    (∀ (db : List Property) (cache : AIResponseCache Criteria RecommendResult)
      (rl : GeminiRateLimiter) (criteria : Criteria) (maxr : ℕ) (now : ℤ)
      (gen : GenOutcome RecommendJson) (m : ℤ),
      (cache.get criteria now).1 = none →
      fetchProperties db (some (buildRecommendFilters criteria)) 20 ≠ [] →
      (rl.acquire now).1 = .quotaExceeded m →
      (recommendProperties db cache rl criteria maxr now gen).1 =
        { fallbackRecommendations
            ((scoreProperties
              (fetchProperties db (some (buildRecommendFilters criteria)) 20)
              criteria).take maxr) with
          error := some (.quotaExceeded m) }) ∧
    (∀ (db : List Property)
      (cache : AIResponseCache (List ℕ × List String) CompareResult)
      (rl : GeminiRateLimiter) (ids : List ℕ) (aspects : Option (List String))
      (now : ℤ) (gen : GenOutcome ComparisonJson) (m : ℤ),
      2 ≤ ids.length → ids.length ≤ 5 →
      (cache.get (compareCacheKey ids aspects) now).1 = none →
      (db.filter fun p => ids.contains p.id).length = ids.length →
      (rl.acquire now).1 = .quotaExceeded m →
      (compareProperties db cache rl ids aspects now gen).toOption.map Prod.fst =
        (fallbackComparison (ids.filterMap fun pid =>
          (db.filter fun p => ids.contains p.id).find?
            fun p => p.id == pid)).toOption.map
          (fun fb => { fb with error := some (.quotaExceeded m), from_cache := false }) ∧
      (∀ msg, fallbackComparison (ids.filterMap fun pid =>
          (db.filter fun p => ids.contains p.id).find? fun p => p.id == pid) =
          .error msg →
        compareProperties db cache rl ids aspects now gen =
          .error (.typeError msg))) ∧
    (∀ (db : List Property)
      (cache : AIResponseCache (String × String × String) MarketResult)
      (rl : GeminiRateLimiter) (region : Option String) (time_period : String)
      (focus : Option String) (now : ℤ) (gen : GenOutcome MarketJson) (m : ℤ),
      (cache.get (marketCacheKey region time_period focus) now).1 = none →
      fetchProperties db
        (some { city := if strTruthy region then region else none }) 200 ≠ [] →
      (rl.acquire now).1 = .quotaExceeded m →
      (analyzeMarketTrends db cache rl region time_period focus now gen).1 =
        { fallbackMarketAnalysis
            (fetchProperties db
              (some { city := if strTruthy region then region else none }) 200)
            (calculateMarketStats (fetchProperties db
              (some { city := if strTruthy region then region else none }) 200))
            (analyzeDomDistribution (fetchProperties db
              (some { city := if strTruthy region then region else none }) 200)) with
          error := some (.quotaExceeded m) }) := by
  refine ⟨?_, ?_, ?_, ?_⟩
  · intro db cache rl filters maxp now gen m hmiss hne hq
    simp only [summarizeProperties, hmiss]
    rw [if_neg hne]
    simp only [hq]
    rfl
  · intro db cache rl criteria maxr now gen m hmiss hne hq
    simp only [recommendProperties, hmiss]
    rw [if_neg hne]
    simp only [hq]
    rfl
  · intro db cache rl ids aspects now gen m h2 h5 hmiss hlen hq
    constructor
    · simp only [compareProperties]
      rw [if_neg (by omega), if_neg (by omega)]
      simp only [hmiss]
      rw [if_neg (by omega)]
      simp only [hq]
      cases hfb : fallbackComparison (ids.filterMap fun pid =>
          (db.filter fun p => ids.contains p.id).find? fun p => p.id == pid) <;>
        simp [Except.toOption]
    · intro msg hmsg
      simp only [compareProperties]
      rw [if_neg (by omega), if_neg (by omega)]
      simp only [hmiss]
      rw [if_neg (by omega)]
      simp only [hq]
      rw [hmsg]
  · intro db cache rl region time_period focus now gen m hmiss hne hq
    simp only [analyzeMarketTrends, hmiss]
    rw [if_neg hne]
    simp only [hq]
    rfl

/-- C1 amended witness: all four pipelines exercised against the
day-exhausted limiter `rlQuota` at time 1000 on the two-listing
database. -/
theorem c1_amended_witness :
    (((summaryCache0.get (summaryCacheKey none 50) 1000).1 = none ∧
        fetchProperties dbAB none 50 ≠ [] ∧
        (rlQuota.acquire 1000).1 = .quotaExceeded 1438) ∧
      (summarizeProperties dbAB summaryCache0 rlQuota none 50 1000
          (.ok (.noJson "unused"))).1 =
        { fallbackSummary (fetchProperties dbAB none 50)
            (calculateStatistics (fetchProperties dbAB none 50)) with
          error := some (.quotaExceeded 1438) }) ∧
    (((recommendCache0.get critDefault 1000).1 = none ∧
        fetchProperties dbAB (some (buildRecommendFilters critDefault)) 20 ≠ [] ∧
        (rlQuota.acquire 1000).1 = .quotaExceeded 1438) ∧
      (recommendProperties dbAB recommendCache0 rlQuota critDefault 5 1000
          (.raised "boom")).1 =
        { fallbackRecommendations
            ((scoreProperties
              (fetchProperties dbAB (some (buildRecommendFilters critDefault)) 20)
              critDefault).take 5) with
          error := some (.quotaExceeded 1438) }) ∧
    (((compareCache0.get (compareCacheKey [7, 42] none) 1000).1 = none ∧
        (dbAB.filter fun p => ([7, 42] : List ℕ).contains p.id).length =
          ([7, 42] : List ℕ).length ∧
        (rlQuota.acquire 1000).1 = .quotaExceeded 1438) ∧
      (compareProperties dbAB compareCache0 rlQuota [7, 42] none 1000
          (.raised "boom")).toOption.map Prod.fst =
        (fallbackComparison (([7, 42] : List ℕ).filterMap fun pid =>
          (dbAB.filter fun p => ([7, 42] : List ℕ).contains p.id).find?
            fun p => p.id == pid)).toOption.map
          (fun fb => { fb with error := some (.quotaExceeded 1438), from_cache := false })) ∧
    (((marketCache0.get (marketCacheKey none "30d" none) 1000).1 = none ∧
        fetchProperties dbAB
          (some { city := if strTruthy none then none else none }) 200 ≠ [] ∧
        (rlQuota.acquire 1000).1 = .quotaExceeded 1438) ∧
      (analyzeMarketTrends dbAB marketCache0 rlQuota none "30d" none 1000
          (.raised "boom")).1 =
        { fallbackMarketAnalysis
            (fetchProperties dbAB
              (some { city := if strTruthy none then none else none }) 200)
            (calculateMarketStats (fetchProperties dbAB
              (some { city := if strTruthy none then none else none }) 200))
            (analyzeDomDistribution (fetchProperties dbAB
              (some { city := if strTruthy none then none else none }) 200)) with
          error := some (.quotaExceeded 1438) }) :=
  ⟨⟨⟨by decide, by decide, by decide⟩,
    c1_quota_to_fallback_amended.1 dbAB summaryCache0 rlQuota none 50 1000
      (.ok (.noJson "unused")) 1438 (by decide) (by decide) (by decide)⟩,
   ⟨⟨by decide, by decide, by decide⟩,
    c1_quota_to_fallback_amended.2.1 dbAB recommendCache0 rlQuota critDefault 5
      1000 (.raised "boom") 1438 (by decide) (by decide) (by decide)⟩,
   ⟨⟨by decide, by decide, by decide⟩,
    (c1_quota_to_fallback_amended.2.2.1 dbAB compareCache0 rlQuota [7, 42] none
      1000 (.raised "boom") 1438 (by decide) (by decide) (by decide) (by decide)
      (by decide)).1⟩,
   ⟨⟨by decide, by decide, by decide⟩,
    c1_quota_to_fallback_amended.2.2.2 dbAB marketCache0 rlQuota none "30d"
      none 1000 (.raised "boom") 1438 (by decide) (by decide) (by decide)⟩⟩

end SLV
